import Mathlib

/-!
# Sunrise / sunset calculator: `sunrise.c`

A shallow embedding of the calculation routines and of `main` of `sunrise.c`,
followed by theorems about them.

Conventions of the embedding.

* A finite C `double` is an element of an ordered field `K` with a floor
  function (`ℚ` for evaluation, `ℝ` for the trigonometric theorems); arithmetic
  on finite values is exact.
* A `double` that need not be finite is an `Option K`; `none` stands for a
  non-finite value (NaN or an infinity).  It arises from the domain errors of
  `asin` / `acos` and from a division by zero.
* The functions of `<math.h>` are the fields of a `Libm K`; `realLibm` is the
  mathematical one over `ℝ`, with `M_PI` read as `π`.
* C `int` and `time_t` are `ℤ`; integer arithmetic is described for the runs in
  which it does not overflow.  A conversion of a double to `int` or `time_t`
  truncates toward zero inside the range of the type and delivers the least
  value of the type outside it, as the x86 conversion instruction does where C
  leaves the result undefined.
-/

namespace Sunrise

/-- The part of `<math.h>` that the program calls.  `asin` and `acos` have a
domain error outside `[-1, 1]`, where they return NaN (`none`). -/
structure Libm (K : Type) where
  /-- The constant `M_PI`. -/
  pi : K
  /-- The function `sin`. -/
  sin : K → K
  /-- The function `cos`. -/
  cos : K → K
  /-- The function `tan`. -/
  tan : K → K
  /-- The function `asin`. -/
  asin : K → Option K
  /-- The function `acos`. -/
  acos : K → Option K

/-- The mathematical library over the reals. -/
noncomputable def realLibm : Libm ℝ where
  pi := Real.pi
  sin := Real.sin
  cos := Real.cos
  tan := Real.tan
  asin := fun x => if -1 ≤ x ∧ x ≤ 1 then some (Real.arcsin x) else none
  acos := fun x => if -1 ≤ x ∧ x ≤ 1 then some (Real.arccos x) else none

/-- The real library with `M_PI` as the program has it: the double nearest to
`π`, which is `884279719003555 / 2^48`. -/
noncomputable def roundedPiLibm : Libm ℝ :=
  { realLibm with pi := 884279719003555 / 281474976710656 }

/-- The second loop of `calcGeomMeanLongSun`: `while (L < 0) L += 360.0;`. -/
def addLoop {K : Type} [LinearOrderedField K] [FloorRing K] (L : K) : K :=
  if L < 0 then addLoop (L + 360.0) else L
termination_by (⌈-L⌉).toNat
decreasing_by
  rename_i h
  have h1 : (0 : ℤ) < ⌈-L⌉ := Int.ceil_pos.mpr (by linarith)
  have hsub : ⌈-(L + 360.0)⌉ = ⌈-L⌉ - 360 := by
    have : -(L + 360.0) = -L - ((360 : ℤ) : K) := by norm_num; ring
    rw [this, Int.ceil_sub_int]
  rw [hsub]
  omega

section Core

variable {K : Type} [LinearOrderedField K] [FloorRing K]

/-- Truncation toward zero, the value of a conversion of a double to an integer
type that can hold it. -/
def truncate (x : K) : ℤ :=
  if 0 ≤ x then ⌊x⌋ else ⌈x⌉

/-- The C conversion `(int) x` of a double to the 32-bit `int`: truncation toward
zero when the truncated value is an `int`.  Otherwise C leaves the conversion
undefined; the x86 conversion instruction then delivers `INT_MIN`, which is
the value taken here. -/
def toInt (x : K) : ℤ :=
  if -2147483649 < x ∧ x < 2147483648 then truncate x else -2147483648

/-- The C conversion of a double to the 64-bit `time_t`, in the same way. -/
def toTimeT (x : K) : ℤ :=
  if -9223372036854775809 < x ∧ x < 9223372036854775808 then truncate x
  else -9223372036854775808

/-- Division of doubles `x / y` with a divisor that may vanish: the quotient
is finite unless the divisor is zero. -/
def fdiv (x y : K) : Option K :=
  if y = 0 then none else some (x / y)

/-- Source: `degToRad`. -/
def degToRad (m : Libm K) (angleDeg : K) : K :=
  m.pi * angleDeg / 180.0

/-- Source: `radToDeg`. -/
def radToDeg (m : Libm K) (angleRad : K) : K :=
  180.0 * angleRad / m.pi

/-- Source: `calcMeanObliquityOfEcliptic`. -/
def calcMeanObliquityOfEcliptic (t : K) : K :=
  let seconds := 21.448 - t * (46.8150 + t * (0.00059 - t * 0.001813))
  let e0 := 23.0 + (26.0 + seconds / 60.0) / 60.0
  e0

/-- The first loop of `calcGeomMeanLongSun`: `while ((int) L > 360) L -= 360.0;`. -/
def subLoop (L : K) : K :=
  if toInt L > 360 then subLoop (L - 360.0) else L
termination_by (toInt L).toNat
decreasing_by
  rename_i h
  have hr : -2147483649 < L ∧ L < 2147483648 := by
    by_contra hout
    simp only [toInt, if_neg hout] at h
    omega
  have h0 : 0 ≤ L := by
    by_contra hneg
    have hc : ⌈L⌉ ≤ 0 := Int.ceil_le.mpr (by push_cast; exact le_of_lt (not_le.mp hneg))
    simp only [toInt, if_pos hr, truncate, if_neg hneg] at h
    omega
  have hfl : (360 : ℤ) < ⌊L⌋ := by simpa [toInt, hr, truncate, h0] using h
  have h361 : (361 : K) ≤ L := by
    have h1 : (361 : ℤ) ≤ ⌊L⌋ := by omega
    have h2 := Int.le_floor.mp h1
    simpa using h2
  have hpos : (0 : K) ≤ L - 360.0 := by norm_num; linarith
  have hr2 : -2147483649 < L - 360.0 ∧ L - 360.0 < 2147483648 := by
    constructor
    · linarith
    · norm_num; linarith [hr.2]
  have hsub : ⌊L - 360.0⌋ = ⌊L⌋ - 360 := by
    have : L - 360.0 = L - ((360 : ℤ) : K) := by norm_num
    rw [this, Int.floor_sub_int]
  simp only [toInt, if_pos hr, if_pos hr2, truncate, if_pos h0, if_pos hpos, hsub]
  omega

/-- Source: `calcGeomMeanLongSun`. -/
def calcGeomMeanLongSun (t : K) : K :=
  let L := 280.46646 + t * (36000.76983 + 0.0003032 * t)
  let L := subLoop L
  let L := addLoop L
  L

/-- Source: `calcObliquityCorrection`. -/
def calcObliquityCorrection (m : Libm K) (t : K) : K :=
  let e0 := calcMeanObliquityOfEcliptic t
  let omega := 125.04 - 1934.136 * t
  let e := e0 + 0.00256 * m.cos (degToRad m omega)
  e

/-- Source: `calcEccentricityEarthOrbit`. -/
def calcEccentricityEarthOrbit (t : K) : K :=
  let e := 0.016708634 - t * (0.000042037 + 0.0000001267 * t)
  e

/-- Source: `calcGeomMeanAnomalySun`. -/
def calcGeomMeanAnomalySun (t : K) : K :=
  let M := 357.52911 + t * (35999.05029 - 0.0001537 * t)
  M

/-- Source: `calcEquationOfTime`. -/
def calcEquationOfTime (m : Libm K) (t : K) : K :=
  let epsilon := calcObliquityCorrection m t
  let l0 := calcGeomMeanLongSun t
  let e := calcEccentricityEarthOrbit t
  let ma := calcGeomMeanAnomalySun t
  let y := m.tan (degToRad m epsilon / 2.0)
  let y := y * y
  let sin2l0 := m.sin (2.0 * degToRad m l0)
  let sinm := m.sin (degToRad m ma)
  let cos2l0 := m.cos (2.0 * degToRad m l0)
  let sin4l0 := m.sin (4.0 * degToRad m l0)
  let sin2m := m.sin (2.0 * degToRad m ma)
  let Etime := y * sin2l0
    - 2.0 * e * sinm
    + 4.0 * e * y * sinm * cos2l0
    - 0.5 * y * y * sin4l0
    - 1.25 * e * e * sin2m
  radToDeg m Etime * 4.0

/-- Source: `calcTimeJulianCent`. -/
def calcTimeJulianCent (jd : K) : K :=
  let T := (jd - 2451545.0) / 36525.0
  T

/-- Source: `calcSunEqOfCenter`. -/
def calcSunEqOfCenter (m : Libm K) (t : K) : K :=
  let ma := calcGeomMeanAnomalySun t
  let mrad := degToRad m ma
  let sinm := m.sin mrad
  let sin2m := m.sin (mrad + mrad)
  let sin3m := m.sin (mrad + mrad + mrad)
  let C := sinm * (1.914602 - t * (0.004817 + 0.000014 * t))
    + sin2m * (0.019993 - 0.000101 * t)
    + sin3m * 0.000289
  C

/-- Source: `calcSunTrueLong`. -/
def calcSunTrueLong (m : Libm K) (t : K) : K :=
  let l0 := calcGeomMeanLongSun t
  let c := calcSunEqOfCenter m t
  let O := l0 + c
  O

/-- Source: `calcSunApparentLong`. -/
def calcSunApparentLong (m : Libm K) (t : K) : K :=
  let o := calcSunTrueLong m t
  let omega := 125.04 - 1934.136 * t
  let lambda := o - 0.00569 - 0.00478 * m.sin (degToRad m omega)
  lambda

/-- Source: `calcSunDeclination`. -/
def calcSunDeclination (m : Libm K) (t : K) : Option K := do
  let e := calcObliquityCorrection m t
  let lambda := calcSunApparentLong m t
  let sint := m.sin (degToRad m e) * m.sin (degToRad m lambda)
  let theta := radToDeg m (← m.asin sint)
  pure theta

/-- Source: `calcHourAngleSunrise`. -/
def calcHourAngleSunrise (m : Libm K) (lat solarDec : K) : Option K := do
  let latRad := degToRad m lat
  let sdRad := degToRad m solarDec
  let q ← fdiv (m.cos (degToRad m 90.833)) (m.cos latRad * m.cos sdRad)
  let HA ← m.acos (q - m.tan latRad * m.tan sdRad)
  pure HA

/-- Source: `calcHourAngleSunset`. -/
def calcHourAngleSunset (m : Libm K) (lat solarDec : K) : Option K := do
  let latRad := degToRad m lat
  let sdRad := degToRad m solarDec
  let q ← fdiv (m.cos (degToRad m 90.833)) (m.cos latRad * m.cos sdRad)
  let HA ← m.acos (q - m.tan latRad * m.tan sdRad)
  pure (-HA)

/-- Source: `calcJD`.  The quotients `year/100` and `A/4` divide two `int`s,
so they truncate toward zero before `floor` sees them. -/
def calcJD (year month day : ℤ) : K :=
  let year1 := if month ≤ 2 then year - 1 else year
  let month1 := if month ≤ 2 then month + 12 else month
  let A : ℤ := ⌊((Int.tdiv year1 100 : ℤ) : K)⌋
  let B : ℤ := toInt (((2 - A : ℤ) : K) + (⌊((Int.tdiv A 4 : ℤ) : K)⌋ : K))
  let JD := (⌊(365.25 : K) * ((year1 + 4716 : ℤ) : K)⌋ : K)
    + (⌊(30.6001 : K) * ((month1 + 1 : ℤ) : K)⌋ : K)
    + (day : K)
    + (B : K)
    - 1524.5
  JD

/-- Source: `calcJDFromJulianCent`. -/
def calcJDFromJulianCent (t : K) : K :=
  let JD := t * 36525.0 + 2451545.0
  JD

/-- Source: `calcSunriseUTC`. -/
def calcSunriseUTC (m : Libm K) (JD latitude longitude : K) : Option K := do
  let t := calcTimeJulianCent JD
  let eqTime := calcEquationOfTime m t
  let solarDec ← calcSunDeclination m t
  let hourAngle ← calcHourAngleSunrise m latitude solarDec
  let delta := longitude - radToDeg m hourAngle
  let timeDiff := 4 * delta
  let timeUTC := 720 + timeDiff - eqTime
  let newt := calcTimeJulianCent (calcJDFromJulianCent t + timeUTC / 1440.0)
  let eqTime := calcEquationOfTime m newt
  let solarDec ← calcSunDeclination m newt
  let hourAngle ← calcHourAngleSunrise m latitude solarDec
  let delta := longitude - radToDeg m hourAngle
  let timeDiff := 4 * delta
  let timeUTC := 720 + timeDiff - eqTime
  pure timeUTC

/-- Source: `calcSunsetUTC`. -/
def calcSunsetUTC (m : Libm K) (JD latitude longitude : K) : Option K := do
  let t := calcTimeJulianCent JD
  let eqTime := calcEquationOfTime m t
  let solarDec ← calcSunDeclination m t
  let hourAngle ← calcHourAngleSunset m latitude solarDec
  let delta := longitude - radToDeg m hourAngle
  let timeDiff := 4 * delta
  let timeUTC := 720 + timeDiff - eqTime
  let newt := calcTimeJulianCent (calcJDFromJulianCent t + timeUTC / 1440.0)
  let eqTime := calcEquationOfTime m newt
  let solarDec ← calcSunDeclination m newt
  let hourAngle ← calcHourAngleSunset m latitude solarDec
  let delta := longitude - radToDeg m hourAngle
  let timeDiff := 4 * delta
  let timeUTC := 720 + timeDiff - eqTime
  pure timeUTC

end Core

/-! ## `main` -/

/-- One option as `getopt(argc, argv, "subeh:y:m:d:l:o:t:")` delivers it, with
its argument already converted by `atoi` / `atof`.  `unknown` is any option
outside the option string, for which `getopt` returns `?`. -/
inductive Opt (K : Type) where
  | t (fmt : String)
  | s
  | b
  | e
  | h (n : ℤ)
  | y (n : ℤ)
  | m (n : ℤ)
  | d (n : ℤ)
  | l (x : K)
  | o (x : K)
  | u
  | unknown

/-- The variables of `main` that the option loop assigns. -/
structure Args (K : Type) where
  time_fmt : String
  s_flag : Bool
  rise : Bool
  set : Bool
  hm : ℤ
  year : ℤ
  month : ℤ
  day : ℤ
  latitude : K
  longitude : K

/-- What `main` reads from the system.  `hm0` is the indeterminate content of
the variable `hm`, which `time_t hm;` declares without a value and only the
option `-h` assigns: any integer may stand here, and a run without `-h` computes
with it.  `mktime year month day` is `mktime` of local midnight of that day;
`gmtHour seconds` is `gmtime(&seconds)->tm_hour`; `strftime fmt seconds` is the
buffer filled by `strftime(buffer, 30, fmt, localtime(&seconds))` where
`localtime` succeeds. -/
structure Env where
  now : ℤ
  todayYear : ℤ
  todayMonth : ℤ
  todayDay : ℤ
  hm0 : ℤ
  mktime : ℤ → ℤ → ℤ → ℤ
  gmtHour : ℤ → ℤ
  strftime : String → ℤ → String

/-- What a run of the program leaves: the lines on standard output and the
exit status. -/
structure Outcome where
  stdout : List String
  status : ℤ
deriving DecidableEq

/-- The body of the `switch` in the option loop; `none` is the call of
`usage()`, which does not return. -/
def applyOpt {K : Type} (a : Args K) : Opt K → Option (Args K)
  | Opt.t fmt => some { a with time_fmt := fmt }
  | Opt.s => some { a with s_flag := true }
  | Opt.b => some { a with rise := true }
  | Opt.e => some { a with set := true }
  | Opt.h n => some { a with hm := n }
  | Opt.y n => some { a with year := n }
  | Opt.m n => some { a with month := n }
  | Opt.d n => some { a with day := n }
  | Opt.l x => some { a with latitude := x }
  | Opt.o x => some { a with longitude := x }
  | Opt.u => none
  | Opt.unknown => none

/-- The option loop `while ((opt = getopt(...)) != -1) switch (opt) ...`. -/
def parseOpts {K : Type} (a : Args K) : List (Opt K) → Option (Args K)
  | [] => some a
  | opt :: rest => (applyOpt a opt).bind fun a1 => parseOpts a1 rest

/-- The variables of `main` before the option loop: `DEF_LAT`, `DEF_LON`,
`TIME_FMT`, today's date from `gmtime(&now)`, and `hm` not initialised. -/
def initArgs {K : Type} [LinearOrderedField K] (env : Env) : Args K where
  time_fmt := "%d-%m-%Y  %T"
  s_flag := false
  rise := false
  set := false
  hm := env.hm0
  year := env.todayYear
  month := env.todayMonth
  day := env.todayDay
  latitude := 51.38
  longitude := 2.36

/-- The adjusted instant of an event at `timeUTC` minutes: the `time_t`
that `seconds` holds after `seconds = seconds + timeUTC*60;` and
`seconds = seconds - delta*3600 + hm*3600;`. -/
def adjusted {K : Type} [LinearOrderedField K] [FloorRing K]
    (sod delta hm : ℤ) (timeUTC : K) : ℤ :=
  toTimeT ((sod : K) + timeUTC * 60) - delta * 3600 + hm * 3600

/-- Source: `main`, compiled without `DEBUG`.  `usage()` writes to standard
error and calls `exit(-1)`.  A NaN sunrise or sunset has no defined conversion
to `time_t`: the result is `none`.

Limits of the description: the `float JD` holds `calcJD` exactly only while
the Julian day is below `2^23` (up to the year 18000 or so), and later dates
are rounded by the program; a run in which `localtime` fails on an adjusted
instant (a `time_t` beyond the years of an `int`, as a large content of `hm`
produces) ends in a crash inside `strftime` and not as written here. -/
def main {K : Type} [LinearOrderedField K] [FloorRing K]
    (env : Env) (lib : Libm K) (argv : List (Opt K)) : Option Outcome :=
  match parseOpts (initArgs env) argv with
  | none => some { stdout := [], status := -1 }
  | some a => do
    let dark : ℤ := 1
    let JD : K := calcJD a.year a.month a.day
    let seconds := env.mktime a.year a.month a.day
    let delta := env.gmtHour seconds
    let tseconds := seconds
    -- calculate sunrise time
    let riseUTC ← calcSunriseUTC lib JD a.latitude a.longitude
    let seconds := toTimeT ((seconds : K) + riseUTC * 60)
    let seconds := seconds - delta * 3600 + a.hm * 3600
    let buffer := env.strftime a.time_fmt seconds
    let out1 := if !a.s_flag && a.rise then [buffer] else []
    let dark := if env.now > seconds then 0 else dark
    -- .... and the same for sunset
    let seconds := tseconds
    let setUTC ← calcSunsetUTC lib JD a.latitude a.longitude
    let seconds := toTimeT ((seconds : K) + setUTC * 60)
    let seconds := seconds - delta * 3600 + a.hm * 3600
    let buffer := env.strftime a.time_fmt seconds
    let out2 := if !a.s_flag && a.set then [buffer] else []
    let dark := if env.now > seconds then 1 else dark
    if a.s_flag then
      pure { stdout := out1 ++ out2, status := dark }
    else
      pure { stdout := out1 ++ out2, status := 0 }

/-! ## An instance for evaluation -/

/-- A crude rational stand-in for the math library, for evaluating the
program on concrete inputs: the small-angle values `sin x = 0`, `cos x = 1`,
`tan x = 0`, and linear `asin`, `acos` with their domain errors. -/
def sampleLibm : Libm ℚ where
  pi := 3
  sin := fun _ => 0
  cos := fun _ => 1
  tan := fun _ => 0
  asin := fun x => if -1 ≤ x ∧ x ≤ 1 then some x else none
  acos := fun x => if -1 ≤ x ∧ x ≤ 1 then some (3 / 2 - x) else none

/-- A sample system state: 1 January 2000, 12:00:00 UTC, no daylight saving. -/
def sampleEnv : Env where
  now := 946728000
  todayYear := 2000
  todayMonth := 1
  todayDay := 1
  hm0 := 0
  mktime := fun _ _ _ => 946684800
  gmtHour := fun _ => 0
  strftime := fun _ seconds => toString seconds

/-! ## The Gregorian calendar and the textbook Julian-day formula -/

/-- Gregorian leap-year rule. -/
def isLeapYear (year : ℤ) : Prop :=
  year % 4 = 0 ∧ (year % 100 ≠ 0 ∨ year % 400 = 0)

instance (year : ℤ) : Decidable (isLeapYear year) := by
  unfold isLeapYear
  infer_instance

/-- Number of days of a month of the Gregorian calendar. -/
def daysInMonth (year month : ℤ) : ℤ :=
  if month = 2 then (if isLeapYear year then 29 else 28)
  else if month = 4 ∨ month = 6 ∨ month = 9 ∨ month = 11 then 30
  else 31

/-- A date of the Gregorian calendar. -/
def validDate (year month day : ℤ) : Prop :=
  1 ≤ month ∧ month ≤ 12 ∧ 1 ≤ day ∧ day ≤ daysInMonth year month

/-- The calendar date that follows a valid date. -/
def nextDate (year month day : ℤ) : ℤ × ℤ × ℤ :=
  if day < daysInMonth year month then (year, month, day + 1)
  else if month < 12 then (year, month + 1, 1)
  else (year + 1, 1, 1)

/-- The Julian-day formula as section 4.1 of the specification writes it, with
every `floor` the mathematical floor of a real quotient. -/
def calcJDFormula {K : Type} [LinearOrderedField K] [FloorRing K] (year month day : ℤ) : K :=
  let y := if month ≤ 2 then year - 1 else year
  let m := if month ≤ 2 then month + 12 else month
  let A : ℤ := ⌊(y : K) / 100⌋
  let B : ℤ := 2 - A + ⌊(A : K) / 4⌋
  (⌊(365.25 : K) * ((y : K) + 4716)⌋ : K) + (⌊(30.6001 : K) * ((m : K) + 1)⌋ : K)
    + (day : K) + (B : K) - 1524.5

/-! ## One refinement pass, as the statements about the two-pass drivers write it -/

/-- The one-pass sunrise value
`U(s) = 720 + 4*(lon - radToDeg(calcHourAngleSunrise(lat, calcSunDeclination(s)))) - calcEquationOfTime(s)`. -/
def sunrisePass {K : Type} [LinearOrderedField K] [FloorRing K] (m : Libm K)
    (latitude longitude s : K) : Option K :=
  (calcSunDeclination m s).bind fun solarDec =>
    (calcHourAngleSunrise m latitude solarDec).bind fun hourAngle =>
      some (720 + 4 * (longitude - radToDeg m hourAngle) - calcEquationOfTime m s)

/-- The one-pass sunset value: `sunrisePass` with `calcHourAngleSunset`. -/
def sunsetPass {K : Type} [LinearOrderedField K] [FloorRing K] (m : Libm K)
    (latitude longitude s : K) : Option K :=
  (calcSunDeclination m s).bind fun solarDec =>
    (calcHourAngleSunset m latitude solarDec).bind fun hourAngle =>
      some (720 + 4 * (longitude - radToDeg m hourAngle) - calcEquationOfTime m s)

/-- The argument of `acos` in the hour-angle functions, over the reals:
`cos(90.833°)/(cos(lat)*cos(dec)) - tan(lat)*tan(dec)`, angles in degrees. -/
noncomputable def acosArg (lat dec : ℝ) : ℝ :=
  Real.cos (Real.pi * 90.833 / 180) / (Real.cos (Real.pi * lat / 180) * Real.cos (Real.pi * dec / 180))
    - Real.tan (Real.pi * lat / 180) * Real.tan (Real.pi * dec / 180)

/-! ## The pipeline with another normalisation of the mean longitude

The same routines with the two loops of `calcGeomMeanLongSun` replaced by a
function `norm`; `norm = mod360` is the true modulo-360 reduction and
`norm = id` is no normalisation at all. -/

section Variant

variable {K : Type} [LinearOrderedField K] [FloorRing K]

/-- True reduction modulo 360, into `[0, 360)`. -/
def mod360 (L : K) : K :=
  L - 360 * (⌊L / 360⌋ : K)

/-- `calcGeomMeanLongSun` with `norm` in place of the two loops. -/
def calcGeomMeanLongSunWith (norm : K → K) (t : K) : K :=
  let L := 280.46646 + t * (36000.76983 + 0.0003032 * t)
  let L := norm L
  L

/-- `calcEquationOfTime` over `calcGeomMeanLongSunWith norm`. -/
def calcEquationOfTimeWith (norm : K → K) (m : Libm K) (t : K) : K :=
  let epsilon := calcObliquityCorrection m t
  let l0 := calcGeomMeanLongSunWith norm t
  let e := calcEccentricityEarthOrbit t
  let ma := calcGeomMeanAnomalySun t
  let y := m.tan (degToRad m epsilon / 2.0)
  let y := y * y
  let sin2l0 := m.sin (2.0 * degToRad m l0)
  let sinm := m.sin (degToRad m ma)
  let cos2l0 := m.cos (2.0 * degToRad m l0)
  let sin4l0 := m.sin (4.0 * degToRad m l0)
  let sin2m := m.sin (2.0 * degToRad m ma)
  let Etime := y * sin2l0
    - 2.0 * e * sinm
    + 4.0 * e * y * sinm * cos2l0
    - 0.5 * y * y * sin4l0
    - 1.25 * e * e * sin2m
  radToDeg m Etime * 4.0

/-- `calcSunTrueLong` over `calcGeomMeanLongSunWith norm`. -/
def calcSunTrueLongWith (norm : K → K) (m : Libm K) (t : K) : K :=
  let l0 := calcGeomMeanLongSunWith norm t
  let c := calcSunEqOfCenter m t
  let O := l0 + c
  O

/-- `calcSunApparentLong` over `calcSunTrueLongWith norm`. -/
def calcSunApparentLongWith (norm : K → K) (m : Libm K) (t : K) : K :=
  let o := calcSunTrueLongWith norm m t
  let omega := 125.04 - 1934.136 * t
  let lambda := o - 0.00569 - 0.00478 * m.sin (degToRad m omega)
  lambda

/-- `calcSunDeclination` over `calcSunApparentLongWith norm`. -/
def calcSunDeclinationWith (norm : K → K) (m : Libm K) (t : K) : Option K := do
  let e := calcObliquityCorrection m t
  let lambda := calcSunApparentLongWith norm m t
  let sint := m.sin (degToRad m e) * m.sin (degToRad m lambda)
  let theta := radToDeg m (← m.asin sint)
  pure theta

/-- `calcSunriseUTC` over `calcEquationOfTimeWith norm` and
`calcSunDeclinationWith norm`. -/
def calcSunriseUTCWith (norm : K → K) (m : Libm K) (JD latitude longitude : K) : Option K := do
  let t := calcTimeJulianCent JD
  let eqTime := calcEquationOfTimeWith norm m t
  let solarDec ← calcSunDeclinationWith norm m t
  let hourAngle ← calcHourAngleSunrise m latitude solarDec
  let delta := longitude - radToDeg m hourAngle
  let timeDiff := 4 * delta
  let timeUTC := 720 + timeDiff - eqTime
  let newt := calcTimeJulianCent (calcJDFromJulianCent t + timeUTC / 1440.0)
  let eqTime := calcEquationOfTimeWith norm m newt
  let solarDec ← calcSunDeclinationWith norm m newt
  let hourAngle ← calcHourAngleSunrise m latitude solarDec
  let delta := longitude - radToDeg m hourAngle
  let timeDiff := 4 * delta
  let timeUTC := 720 + timeDiff - eqTime
  pure timeUTC

/-- `calcSunsetUTC` over `calcEquationOfTimeWith norm` and
`calcSunDeclinationWith norm`. -/
def calcSunsetUTCWith (norm : K → K) (m : Libm K) (JD latitude longitude : K) : Option K := do
  let t := calcTimeJulianCent JD
  let eqTime := calcEquationOfTimeWith norm m t
  let solarDec ← calcSunDeclinationWith norm m t
  let hourAngle ← calcHourAngleSunset m latitude solarDec
  let delta := longitude - radToDeg m hourAngle
  let timeDiff := 4 * delta
  let timeUTC := 720 + timeDiff - eqTime
  let newt := calcTimeJulianCent (calcJDFromJulianCent t + timeUTC / 1440.0)
  let eqTime := calcEquationOfTimeWith norm m newt
  let solarDec ← calcSunDeclinationWith norm m newt
  let hourAngle ← calcHourAngleSunset m latitude solarDec
  let delta := longitude - radToDeg m hourAngle
  let timeDiff := 4 * delta
  let timeUTC := 720 + timeDiff - eqTime
  pure timeUTC

end Variant

/-- A normalisation that changes its argument by a whole number of turns. -/
def ShiftsByTurns (norm : ℝ → ℝ) : Prop :=
  ∀ L : ℝ, ∃ k : ℤ, norm L = L + 360 * (k : ℝ)

/-! ## Iteration counts of the two loops

The loops of `calcGeomMeanLongSun` once more, returning the number of times
the body runs instead of the final value. -/

/-- The number of iterations of `while ((int) L > 360) L -= 360.0;`. -/
def subLoopCount {K : Type} [LinearOrderedField K] [FloorRing K] (L : K) : ℕ :=
  if toInt L > 360 then subLoopCount (L - 360.0) + 1 else 0
termination_by (toInt L).toNat
decreasing_by
  rename_i h
  have hr : -2147483649 < L ∧ L < 2147483648 := by
    by_contra hout
    simp only [toInt, if_neg hout] at h
    omega
  have h0 : 0 ≤ L := by
    by_contra hneg
    have hc : ⌈L⌉ ≤ 0 := Int.ceil_le.mpr (by push_cast; exact le_of_lt (not_le.mp hneg))
    simp only [toInt, if_pos hr, truncate, if_neg hneg] at h
    omega
  have hfl : (360 : ℤ) < ⌊L⌋ := by simpa [toInt, hr, truncate, h0] using h
  have h361 : (361 : K) ≤ L := by
    have h1 : (361 : ℤ) ≤ ⌊L⌋ := by omega
    have h2 := Int.le_floor.mp h1
    simpa using h2
  have hpos : (0 : K) ≤ L - 360.0 := by norm_num; linarith
  have hr2 : -2147483649 < L - 360.0 ∧ L - 360.0 < 2147483648 := by
    constructor
    · linarith
    · norm_num; linarith [hr.2]
  have hsub : ⌊L - 360.0⌋ = ⌊L⌋ - 360 := by
    have : L - 360.0 = L - ((360 : ℤ) : K) := by norm_num
    rw [this, Int.floor_sub_int]
  simp only [toInt, if_pos hr, if_pos hr2, truncate, if_pos h0, if_pos hpos, hsub]
  omega

/-- The number of iterations of `while (L < 0) L += 360.0;`. -/
def addLoopCount {K : Type} [LinearOrderedField K] [FloorRing K] (L : K) : ℕ :=
  if L < 0 then addLoopCount (L + 360.0) + 1 else 0
termination_by (⌈-L⌉).toNat
decreasing_by
  rename_i h
  have h1 : (0 : ℤ) < ⌈-L⌉ := Int.ceil_pos.mpr (by linarith)
  have hsub : ⌈-(L + 360.0)⌉ = ⌈-L⌉ - 360 := by
    have : -(L + 360.0) = -L - ((360 : ℤ) : K) := by norm_num; ring
    rw [this, Int.ceil_sub_int]
  rw [hsub]
  omega

/-- The number of loop iterations of one call `calcGeomMeanLongSun(t)`: those
of the first loop on the polynomial value and those of the second loop on
what the first loop leaves. -/
def calcGeomMeanLongSunIterations {K : Type} [LinearOrderedField K] [FloorRing K] (t : K) : ℕ :=
  let L := 280.46646 + t * (36000.76983 + 0.0003032 * t)
  subLoopCount L + addLoopCount (subLoop L)

/-! ## Comparison of doubles -/

/-- The C comparison `x >= y` of two doubles: it holds only between two
numbers, never when an operand is NaN. -/
def fge {K : Type} [LinearOrderedField K] (x y : Option K) : Prop :=
  ∃ a b : K, x = some a ∧ y = some b ∧ b ≤ a

/-! ## Theorems -/

section CoreLemmas

variable {K : Type} [LinearOrderedField K] [FloorRing K]

theorem floor_intCast_div_pos (a : ℤ) (d : ℤ) (hd : 0 < d) :
    ⌊(a : K) / (d : K)⌋ = a / d := by
  have hdK : (0 : K) < (d : K) := by exact_mod_cast hd
  rw [Int.floor_eq_iff]
  have h1 := Int.emod_add_ediv a d
  have h2 := Int.emod_nonneg a (ne_of_gt hd)
  have h3 := Int.emod_lt_of_pos a hd
  constructor
  · rw [le_div_iff₀ hdK]
    have : (a / d) * d ≤ a := by nlinarith
    exact_mod_cast this
  · rw [div_lt_iff₀ hdK]
    have : a < (a / d + 1) * d := by nlinarith
    exact_mod_cast this

theorem truncate_intCast (z : ℤ) : truncate (z : K) = z := by
  unfold truncate
  split_ifs <;> simp

theorem truncate_eq_of_nonneg (x : K) (z : ℤ) (h0 : 0 ≤ x) (h1 : (z : K) ≤ x)
    (h2 : x < (z : K) + 1) : truncate x = z := by
  rw [truncate, if_pos h0, Int.floor_eq_iff]
  exact ⟨h1, h2⟩

/-- An integer in the range of `int` converts to itself. -/
theorem toInt_intCast (z : ℤ) (h1 : -2147483648 ≤ z) (h2 : z < 2147483648) :
    toInt (z : K) = z := by
  have hr : (-2147483649 : K) < (z : K) ∧ (z : K) < 2147483648 := by
    constructor
    · have : (-2147483649 : ℤ) < z := by omega
      exact_mod_cast this
    · exact_mod_cast h2
  rw [toInt, if_pos hr, truncate_intCast]

theorem toInt_eq_of_nonneg (x : K) (z : ℤ) (h0 : 0 ≤ x) (h1 : (z : K) ≤ x)
    (h2 : x < (z : K) + 1) (h3 : x < 2147483648) : toInt x = z := by
  rw [toInt, if_pos ⟨by linarith, h3⟩, truncate_eq_of_nonneg x z h0 h1 h2]

theorem toTimeT_eq_of_nonneg (x : K) (z : ℤ) (h0 : 0 ≤ x) (h1 : (z : K) ≤ x)
    (h2 : x < (z : K) + 1) (h3 : x < 9223372036854775808) : toTimeT x = z := by
  rw [toTimeT, if_pos ⟨by linarith, h3⟩, truncate_eq_of_nonneg x z h0 h1 h2]

/-- Beyond the range of `int` on the positive side the conversion delivers
`INT_MIN`. -/
theorem toInt_of_ge (x : K) (h : 2147483648 ≤ x) : toInt x = -2147483648 := by
  rw [toInt, if_neg (fun hr => absurd hr.2 (not_lt.mpr h))]

/-- A guard `(int) x > 360` that holds puts `x` at 361 or above and inside the
range of `int`. -/
theorem le_of_toInt_gt (x : K) (h : toInt x > 360) : (361 : K) ≤ x ∧ x < 2147483648 := by
  have hr : -2147483649 < x ∧ x < 2147483648 := by
    by_contra hout
    simp only [toInt, if_neg hout] at h
    omega
  have h0 : 0 ≤ x := by
    by_contra hneg
    have hc : ⌈x⌉ ≤ 0 := Int.ceil_le.mpr (by push_cast; exact le_of_lt (not_le.mp hneg))
    simp only [toInt, if_pos hr, truncate, if_neg hneg] at h
    omega
  have hfl : (361 : ℤ) ≤ ⌊x⌋ := by
    have : (360 : ℤ) < ⌊x⌋ := by simpa [toInt, hr, truncate, h0] using h
    omega
  have h2 := Int.le_floor.mp hfl
  exact ⟨by simpa using h2, hr.2⟩

/-- A guard `(int) x > 360` that fails on `x` in `[0, 2^31)` puts `x` below 361. -/
theorem lt_of_not_toInt_gt (x : K) (h : ¬ toInt x > 360) (h0 : 0 ≤ x) (h3 : x < 2147483648) :
    x < 361 := by
  rw [toInt, if_pos ⟨by linarith, h3⟩, truncate, if_pos h0] at h
  have h361 : ⌊x⌋ < 361 := by omega
  have := Int.floor_lt.mp h361
  simpa using this

theorem floor_year_term (n : ℤ) : ⌊(365.25 : K) * (n : K)⌋ = 1461 * n / 4 := by
  have h : (365.25 : K) * (n : K) = ((1461 * n : ℤ) : K) / ((4 : ℤ) : K) := by
    push_cast; norm_num; ring
  rw [h, floor_intCast_div_pos _ _ (by norm_num)]

theorem floor_month_term (n : ℤ) : ⌊(30.6001 : K) * (n : K)⌋ = 306001 * n / 10000 := by
  have h : (30.6001 : K) * (n : K) = ((306001 * n : ℤ) : K) / ((10000 : ℤ) : K) := by
    push_cast; norm_num; ring
  rw [h, floor_intCast_div_pos _ _ (by norm_num)]

/-- The value of `calcJD` with every floor and conversion carried out. -/
theorem calcJD_eq (year month day : ℤ)
    (hB1 : -2147483648 ≤ 2 - Int.tdiv (if month ≤ 2 then year - 1 else year) 100
      + Int.tdiv (Int.tdiv (if month ≤ 2 then year - 1 else year) 100) 4)
    (hB2 : 2 - Int.tdiv (if month ≤ 2 then year - 1 else year) 100
      + Int.tdiv (Int.tdiv (if month ≤ 2 then year - 1 else year) 100) 4 < 2147483648) :
    (calcJD year month day : K)
      = ((1461 * ((if month ≤ 2 then year - 1 else year) + 4716) / 4
          + 306001 * ((if month ≤ 2 then month + 12 else month) + 1) / 10000
          + day
          + (2 - Int.tdiv (if month ≤ 2 then year - 1 else year) 100
              + Int.tdiv (Int.tdiv (if month ≤ 2 then year - 1 else year) 100) 4) : ℤ) : K)
        - 1524.5 := by
  have hB : toInt (((2 - Int.tdiv (if month ≤ 2 then year - 1 else year) 100 : ℤ) : K)
      + ((Int.tdiv (Int.tdiv (if month ≤ 2 then year - 1 else year) 100) 4 : ℤ) : K))
      = 2 - Int.tdiv (if month ≤ 2 then year - 1 else year) 100
        + Int.tdiv (Int.tdiv (if month ≤ 2 then year - 1 else year) 100) 4 := by
    rw [← Int.cast_add, toInt_intCast _ hB1 hB2]
  simp only [calcJD, Int.floor_intCast, floor_year_term, floor_month_term, hB]
  push_cast
  ring

/-- The value of the textbook formula with every floor carried out. -/
theorem calcJDFormula_eq (year month day : ℤ) :
    (calcJDFormula year month day : K)
      = ((1461 * ((if month ≤ 2 then year - 1 else year) + 4716) / 4
          + 306001 * ((if month ≤ 2 then month + 12 else month) + 1) / 10000
          + day
          + (2 - (if month ≤ 2 then year - 1 else year) / 100
              + (if month ≤ 2 then year - 1 else year) / 100 / 4) : ℤ) : K)
        - 1524.5 := by
  have h100 : ∀ z : ℤ, ⌊(z : K) / 100⌋ = z / 100 := fun z => by
    have := floor_intCast_div_pos (K := K) z 100 (by norm_num)
    simpa using this
  have h4 : ∀ z : ℤ, ⌊(z : K) / 4⌋ = z / 4 := fun z => by
    have := floor_intCast_div_pos (K := K) z 4 (by norm_num)
    simpa using this
  have hy : ∀ z : ℤ, ⌊(365.25 : K) * ((z : K) + 4716)⌋ = 1461 * (z + 4716) / 4 := fun z => by
    rw [← floor_year_term (K := K)]; push_cast; rfl
  have hm : ∀ z : ℤ, ⌊(30.6001 : K) * ((z : K) + 1)⌋ = 306001 * (z + 1) / 10000 := fun z => by
    rw [← floor_month_term (K := K)]; push_cast; rfl
  simp only [calcJDFormula, h100, h4, hy, hm]
  push_cast
  ring

end CoreLemmas

/-! ## Julian day -/

section JulianDay

variable {K : Type} [LinearOrderedField K] [FloorRing K]

/-- C3: `calcJD(2000, 1, 1)` equals exactly 2451544.5. -/
theorem calcJD_2000_01_01 : (calcJD 2000 1 1 : K) = 2451544.5 := by
  rw [calcJD_eq _ _ _ (by decide) (by decide)]
  norm_num [Int.tdiv]

/-- The integer part of `calcJD` on a year that stays non-negative after the
January/February shift, where the truncating quotients are floors. -/
theorem calcJD_eq_of_nonneg (year month day : ℤ)
    (h : 0 ≤ (if month ≤ 2 then year - 1 else year))
    (hub : (if month ≤ 2 then year - 1 else year) ≤ 2147483647) :
    (calcJD year month day : K)
      = ((1461 * ((if month ≤ 2 then year - 1 else year) + 4716) / 4
          + 306001 * ((if month ≤ 2 then month + 12 else month) + 1) / 10000
          + day
          + (2 - (if month ≤ 2 then year - 1 else year) / 100
              + (if month ≤ 2 then year - 1 else year) / 100 / 4) : ℤ) : K)
        - 1524.5 := by
  have h1 : Int.tdiv (if month ≤ 2 then year - 1 else year) 100
      = (if month ≤ 2 then year - 1 else year) / 100 :=
    Int.tdiv_eq_ediv h (by norm_num)
  have h2 : Int.tdiv ((if month ≤ 2 then year - 1 else year) / 100) 4
      = (if month ≤ 2 then year - 1 else year) / 100 / 4 :=
    Int.tdiv_eq_ediv (Int.ediv_nonneg h (by norm_num)) (by norm_num)
  rw [calcJD_eq _ _ _ (by rw [h1, h2]; omega) (by rw [h1, h2]; omega)]
  rw [h1, h2]

/-- C2: for every valid Gregorian date with `1 ≤ year ≤ 9999`, `calcJD` of the
following calendar date is `calcJD` of the date plus one. -/
theorem calcJD_nextDate (year month day : ℤ) (hy1 : 1 ≤ year) (hy2 : year ≤ 9999)
    (hv : validDate year month day) :
    (calcJD (nextDate year month day).1 (nextDate year month day).2.1
        (nextDate year month day).2.2 : K)
      = calcJD year month day + 1 := by
  obtain ⟨hm1, hm2, hd1, hd2⟩ := hv
  have hcur : 0 ≤ (if month ≤ 2 then year - 1 else year) := by
    split_ifs <;> omega
  have hcub : (if month ≤ 2 then year - 1 else year) ≤ 2147483647 := by
    split_ifs <;> omega
  by_cases h1 : day < daysInMonth year month
  · -- the next day of the same month
    have e : nextDate year month day = (year, month, day + 1) := by
      simp [nextDate, h1]
    rw [e]
    simp only []
    rw [calcJD_eq_of_nonneg _ _ _ hcur hcub, calcJD_eq_of_nonneg _ _ _ hcur hcub]
    push_cast
    ring
  · have hd : day = daysInMonth year month := by omega
    by_cases h2 : month < 12
    · -- the first day of the next month
      have e : nextDate year month day = (year, month + 1, 1) := by
        simp [nextDate, h1, h2]
      have hnext : 0 ≤ (if month + 1 ≤ 2 then year - 1 else year) := by
        split_ifs <;> omega
      have hnub : (if month + 1 ≤ 2 then year - 1 else year) ≤ 2147483647 := by
        split_ifs <;> omega
      rw [e]
      simp only []
      rw [calcJD_eq_of_nonneg _ _ _ hnext hnub, calcJD_eq_of_nonneg _ _ _ hcur hcub]
      have key : (1461 * ((if month + 1 ≤ 2 then year - 1 else year) + 4716) / 4
          + 306001 * ((if month + 1 ≤ 2 then month + 1 + 12 else month + 1) + 1) / 10000
          + 1
          + (2 - (if month + 1 ≤ 2 then year - 1 else year) / 100
              + (if month + 1 ≤ 2 then year - 1 else year) / 100 / 4))
          = (1461 * ((if month ≤ 2 then year - 1 else year) + 4716) / 4
          + 306001 * ((if month ≤ 2 then month + 12 else month) + 1) / 10000
          + day
          + (2 - (if month ≤ 2 then year - 1 else year) / 100
              + (if month ≤ 2 then year - 1 else year) / 100 / 4)) + 1 := by
        have a1 : 1461 * (year + 4716) / 4 = 365 * (year + 4716) + (year + 4716) / 4 := by
          omega
        have a2 : 1461 * (year - 1 + 4716) / 4
            = 365 * (year - 1 + 4716) + (year - 1 + 4716) / 4 := by
          omega
        rw [hd]
        unfold daysInMonth isLeapYear
        interval_cases month <;> norm_num <;> omega
      rw [key]
      push_cast
      ring
    · -- the first of January of the next year
      have hm : month = 12 := by omega
      subst hm
      have e : nextDate year 12 day = (year + 1, 1, 1) := by
        simp [nextDate, h1]
      have hd31 : day = 31 := by
        rw [hd]; simp [daysInMonth]
      subst hd31
      rw [e]
      simp only []
      rw [calcJD_eq_of_nonneg _ _ _ (by norm_num; omega) (by norm_num; omega),
        calcJD_eq_of_nonneg _ _ _ (by norm_num; omega) (by norm_num; omega)]
      have key : (1461 * ((if (1 : ℤ) ≤ 2 then year + 1 - 1 else year + 1) + 4716) / 4
          + 306001 * ((if (1 : ℤ) ≤ 2 then 1 + 12 else 1) + 1) / 10000
          + 1
          + (2 - (if (1 : ℤ) ≤ 2 then year + 1 - 1 else year + 1) / 100
              + (if (1 : ℤ) ≤ 2 then year + 1 - 1 else year + 1) / 100 / 4))
          = (1461 * ((if (12 : ℤ) ≤ 2 then year - 1 else year) + 4716) / 4
          + 306001 * ((if (12 : ℤ) ≤ 2 then 12 + 12 else 12) + 1) / 10000
          + 31
          + (2 - (if (12 : ℤ) ≤ 2 then year - 1 else year) / 100
              + (if (12 : ℤ) ≤ 2 then year - 1 else year) / 100 / 4)) + 1 := by
        norm_num
        omega
      rw [key]
      push_cast
      ring

/-- Witness of C2: 28 February 2024 is followed by 29 February 2024, one day later. -/
theorem calcJD_nextDate_witness :
    (1 : ℤ) ≤ 2024 ∧ (2024 : ℤ) ≤ 9999 ∧ validDate 2024 2 28 ∧
      (calcJD (nextDate 2024 2 28).1 (nextDate 2024 2 28).2.1 (nextDate 2024 2 28).2.2 : ℚ)
        = calcJD 2024 2 28 + 1 :=
  ⟨by decide, by decide, by simp [validDate, daysInMonth, isLeapYear],
    calcJD_nextDate 2024 2 28 (by decide) (by decide)
      (by simp [validDate, daysInMonth, isLeapYear])⟩

/-- On a year that stays non-negative after the January/February shift,
`calcJD` is the textbook formula of section 4.1. -/
theorem calcJD_eq_calcJDFormula_of_nonneg (year month day : ℤ)
    (h : 0 ≤ (if month ≤ 2 then year - 1 else year))
    (hub : (if month ≤ 2 then year - 1 else year) ≤ 2147483647) :
    (calcJD year month day : K) = calcJDFormula year month day := by
  rw [calcJD_eq_of_nonneg _ _ _ h hub, calcJDFormula_eq]

/-- C4: at `calcJD(-100, 3, 1)` the code and the formula with mathematical floors
differ by one day: the code computes `B = 3` from the truncating quotients
`-100/100 = -1` and `-1/4 = 0`, the formula has `floor(-1/4) = -1` and `B = 2`. -/
theorem calcJD_neg100_03_01 :
    (calcJD (-100) 3 1 : K) = 1684595.5 ∧ (calcJDFormula (-100) 3 1 : K) = 1684594.5 := by
  have e1 : Int.tdiv (-100) 100 = -1 := by decide
  have e2 : Int.tdiv (-1) 4 = 0 := by decide
  constructor
  · rw [calcJD_eq _ _ _ (by decide) (by decide)]
    simp only [show ¬ ((3 : ℤ) ≤ 2) by decide, if_false, e1, e2]
    norm_num
  · rw [calcJDFormula_eq]
    norm_num

end JulianDay

/-! ## The two-pass drivers -/

theorem calcTimeJulianCent_refined {K : Type} [LinearOrderedField K] (JD u : K) :
    calcTimeJulianCent (calcJDFromJulianCent (calcTimeJulianCent JD) + u / 1440.0)
      = (JD + u / 1440 - 2451545) / 36525 := by
  simp only [calcTimeJulianCent, calcJDFromJulianCent]
  norm_num

section TwoPass

variable {K : Type} [LinearOrderedField K] [FloorRing K]

/-- The sunrise driver is the one-pass value taken at the instant refined
by the one-pass value. -/
theorem calcSunriseUTC_bind (m : Libm K) (JD latitude longitude : K) :
    calcSunriseUTC m JD latitude longitude
      = (sunrisePass m latitude longitude ((JD - 2451545) / 36525)).bind
          (fun u => sunrisePass m latitude longitude ((JD + u / 1440 - 2451545) / 36525)) := by
  have ht : calcTimeJulianCent JD = (JD - 2451545) / 36525 := by
    simp only [calcTimeJulianCent]; norm_num
  simp only [calcSunriseUTC, sunrisePass, calcTimeJulianCent_refined, bind, pure]
  rw [ht]
  cases calcSunDeclination m ((JD - 2451545) / 36525) with
  | none => rfl
  | some dec =>
    simp only [Option.bind]
    cases calcHourAngleSunrise m latitude dec with
    | none => rfl
    | some ha => rfl

/-- The sunset driver is the one-pass value taken at the instant refined by
the one-pass value. -/
theorem calcSunsetUTC_bind (m : Libm K) (JD latitude longitude : K) :
    calcSunsetUTC m JD latitude longitude
      = (sunsetPass m latitude longitude ((JD - 2451545) / 36525)).bind
          (fun u => sunsetPass m latitude longitude ((JD + u / 1440 - 2451545) / 36525)) := by
  have ht : calcTimeJulianCent JD = (JD - 2451545) / 36525 := by
    simp only [calcTimeJulianCent]; norm_num
  simp only [calcSunsetUTC, sunsetPass, calcTimeJulianCent_refined, bind, pure]
  rw [ht]
  cases calcSunDeclination m ((JD - 2451545) / 36525) with
  | none => rfl
  | some dec =>
    simp only [Option.bind]
    cases calcHourAngleSunset m latitude dec with
    | none => rfl
    | some ha => rfl

/-- C1: `calcSunriseUTC(JD, lat, lon)` is `U(t')` with `t = (JD - 2451545)/36525`
and `t' = (JD + U(t)/1440 - 2451545)/36525 = t + U(t)/52596000`: one refinement
pass, and the second-pass value is returned as it is.  The same holds for
`calcSunsetUTC` with `calcHourAngleSunset`.  A non-finite first pass makes the
result non-finite. -/
theorem calcSunriseUTC_eq_second_pass (m : Libm K) (JD latitude longitude : K) :
    calcSunriseUTC m JD latitude longitude
        = (sunrisePass m latitude longitude ((JD - 2451545) / 36525)).bind
            (fun u => sunrisePass m latitude longitude ((JD + u / 1440 - 2451545) / 36525))
    ∧ calcSunsetUTC m JD latitude longitude
        = (sunsetPass m latitude longitude ((JD - 2451545) / 36525)).bind
            (fun u => sunsetPass m latitude longitude ((JD + u / 1440 - 2451545) / 36525))
    ∧ ∀ u : K, (JD + u / 1440 - 2451545) / 36525 = (JD - 2451545) / 36525 + u / 52596000 :=
  ⟨calcSunriseUTC_bind m JD latitude longitude, calcSunsetUTC_bind m JD latitude longitude,
    fun u => by ring⟩

end TwoPass

/-! ## Hour angle -/

theorem degToRad_real (x : ℝ) : degToRad realLibm x = Real.pi * x / 180 := by
  simp only [degToRad, realLibm]
  norm_num

theorem radToDeg_real (x : ℝ) : radToDeg realLibm x = 180 * x / Real.pi := by
  simp only [radToDeg, realLibm]
  norm_num

/-- Both hour-angle functions evaluate the same expression; the sunset one
negates it. -/
theorem calcHourAngleSunset_eq_map {K : Type} [LinearOrderedField K] [FloorRing K]
    (m : Libm K) (lat solarDec : K) :
    calcHourAngleSunset m lat solarDec
      = (calcHourAngleSunrise m lat solarDec).map (fun HA => -HA) := by
  simp only [calcHourAngleSunset, calcHourAngleSunrise, bind, pure]
  cases fdiv (m.cos (degToRad m 90.833)) (m.cos (degToRad m lat) * m.cos (degToRad m solarDec)) with
  | none => rfl
  | some q =>
    simp only [Option.bind]
    cases m.acos (q - m.tan (degToRad m lat) * m.tan (degToRad m solarDec)) with
    | none => rfl
    | some ha => rfl

/-- The sunrise hour angle over the reals, in closed form. -/
theorem calcHourAngleSunrise_real (lat dec : ℝ) :
    calcHourAngleSunrise realLibm lat dec
      = if Real.cos (Real.pi * lat / 180) * Real.cos (Real.pi * dec / 180) = 0 then none
        else if -1 ≤ acosArg lat dec ∧ acosArg lat dec ≤ 1
          then some (Real.arccos (acosArg lat dec)) else none := by
  simp only [calcHourAngleSunrise, fdiv, degToRad_real, bind, pure]
  simp only [realLibm, acosArg]
  by_cases h0 : Real.cos (Real.pi * lat / 180) * Real.cos (Real.pi * dec / 180) = 0
  · simp [h0]
  · simp only [if_neg h0, Option.bind]
    split_ifs <;> rfl

/-- C5: for every latitude and declination `calcHourAngleSunset` is the negated
`calcHourAngleSunrise`, and the latter is
`acos(cos(90.833°)/(cos(lat)*cos(dec)) - tan(lat)*tan(dec))` with the angles
converted from degrees to radians (NaN where the quotient or the arc cosine is
undefined, and then so is its negation). -/
theorem calcHourAngleSunset_eq_neg_sunrise (lat dec : ℝ) :
    calcHourAngleSunset realLibm lat dec
        = (calcHourAngleSunrise realLibm lat dec).map (fun HA => -HA)
    ∧ calcHourAngleSunrise realLibm lat dec
        = if Real.cos (Real.pi * lat / 180) * Real.cos (Real.pi * dec / 180) = 0 then none
          else if -1 ≤ acosArg lat dec ∧ acosArg lat dec ≤ 1
            then some (Real.arccos (acosArg lat dec)) else none :=
  ⟨calcHourAngleSunset_eq_map realLibm lat dec, calcHourAngleSunrise_real lat dec⟩

/-- The declination over the reals is always finite: the argument of `asin`
is a product of two sines. -/
theorem calcSunDeclination_real (t : ℝ) :
    calcSunDeclination realLibm t
      = some (radToDeg realLibm (Real.arcsin
          (Real.sin (degToRad realLibm (calcObliquityCorrection realLibm t))
            * Real.sin (degToRad realLibm (calcSunApparentLong realLibm t))))) := by
  have hb : ∀ a b : ℝ, -1 ≤ Real.sin a * Real.sin b ∧ Real.sin a * Real.sin b ≤ 1 := by
    intro a b
    have h := abs_le.mp (show |Real.sin a * Real.sin b| ≤ 1 by
      rw [abs_mul]
      exact mul_le_one₀ (Real.abs_sin_le_one a) (abs_nonneg _) (Real.abs_sin_le_one b))
    exact h
  simp only [calcSunDeclination, bind, pure]
  simp only [realLibm, if_pos (hb _ _)]
  rfl

/-- At latitude 89° and declination 23.44° the `acos` argument is below `-1`. -/
theorem acosArg_polar_lt : acosArg 89 23.44 < -1 := by
  have hpi := Real.pi_pos
  have hz : Real.cos (Real.pi * 90.833 / 180) < 0 :=
    Real.cos_neg_of_pi_div_two_lt_of_lt (by linarith) (by linarith)
  have ha : 0 < Real.cos (Real.pi * 89 / 180) :=
    Real.cos_pos_of_mem_Ioo ⟨by linarith, by linarith⟩
  have hd : 0 < Real.cos (Real.pi * 23.44 / 180) :=
    Real.cos_pos_of_mem_Ioo ⟨by linarith, by linarith⟩
  have hq : Real.cos (Real.pi * 90.833 / 180)
      / (Real.cos (Real.pi * 89 / 180) * Real.cos (Real.pi * 23.44 / 180)) < 0 :=
    div_neg_of_neg_of_pos hz (mul_pos ha hd)
  have ht1 : 0 < Real.tan (Real.pi / 180) :=
    Real.tan_pos_of_pos_of_lt_pi_div_two (by positivity) (by linarith)
  have ht2 : Real.tan (Real.pi / 180) < Real.tan (Real.pi * 23.44 / 180) :=
    Real.tan_lt_tan_of_lt_of_lt_pi_div_two (by linarith) (by linarith) (by linarith)
  have ht3 : Real.tan (Real.pi * 89 / 180) = (Real.tan (Real.pi / 180))⁻¹ := by
    rw [← Real.tan_pi_div_two_sub]
    congr 1
    ring
  have hprod : 1 < Real.tan (Real.pi * 89 / 180) * Real.tan (Real.pi * 23.44 / 180) := by
    rw [ht3, inv_mul_eq_div, one_lt_div ht1]
    exact ht2
  unfold acosArg
  linarith

/-- Outside `[-1, 1]` the arc cosine has a domain error, and both hour-angle
functions return NaN. -/
theorem calcHourAngle_none_of_outside (lat dec : ℝ)
    (h : acosArg lat dec < -1 ∨ 1 < acosArg lat dec) :
    calcHourAngleSunrise realLibm lat dec = none ∧ calcHourAngleSunset realLibm lat dec = none := by
  have hrise : calcHourAngleSunrise realLibm lat dec = none := by
    rw [calcHourAngleSunrise_real]
    have hn : ¬ (-1 ≤ acosArg lat dec ∧ acosArg lat dec ≤ 1) := by
      rintro ⟨h1, h2⟩
      rcases h with h | h <;> linarith
    simp [hn]
  exact ⟨hrise, by rw [calcHourAngleSunset_eq_map, hrise]; rfl⟩

/-- C6, as the code behaves: at latitude 89° and declination 23.44° the `acos`
argument is below `-1` and both hour-angle functions return the plain NaN of
`acos`; the `double` they return carries no distinct domain-error report. -/
theorem calcHourAngle_polar_nan :
    acosArg 89 23.44 < -1
      ∧ calcHourAngleSunrise realLibm 89 23.44 = none
      ∧ calcHourAngleSunset realLibm 89 23.44 = none :=
  ⟨acosArg_polar_lt, calcHourAngle_none_of_outside 89 23.44 (Or.inl acosArg_polar_lt)⟩

/-- C6, amended: whenever the `acos` argument lies outside `[-1, 1]` both
hour-angle functions return NaN, not a finite number, and `calcSunriseUTC` /
`calcSunsetUTC` return NaN when this happens at the declination of their first
or of their second pass. -/
theorem calcSunriseUTC_nan_of_acosArg_outside (lat dec : ℝ)
    (h : acosArg lat dec < -1 ∨ 1 < acosArg lat dec) :
    calcHourAngleSunrise realLibm lat dec = none
      ∧ calcHourAngleSunset realLibm lat dec = none
      ∧ (∀ JD lon : ℝ, calcSunDeclination realLibm ((JD - 2451545) / 36525) = some dec →
          calcSunriseUTC realLibm JD lat lon = none ∧ calcSunsetUTC realLibm JD lat lon = none)
      ∧ (∀ JD lon u : ℝ, sunrisePass realLibm lat lon ((JD - 2451545) / 36525) = some u →
          calcSunDeclination realLibm ((JD + u / 1440 - 2451545) / 36525) = some dec →
          calcSunriseUTC realLibm JD lat lon = none)
      ∧ (∀ JD lon u : ℝ, sunsetPass realLibm lat lon ((JD - 2451545) / 36525) = some u →
          calcSunDeclination realLibm ((JD + u / 1440 - 2451545) / 36525) = some dec →
          calcSunsetUTC realLibm JD lat lon = none) := by
  obtain ⟨hrise, hset⟩ := calcHourAngle_none_of_outside lat dec h
  refine ⟨hrise, hset, ?_, ?_, ?_⟩
  · intro JD lon hdec
    constructor
    · rw [calcSunriseUTC_bind]
      simp [sunrisePass, hdec, hrise]
    · rw [calcSunsetUTC_bind]
      simp [sunsetPass, hdec, hset]
  · intro JD lon u hu hdec
    rw [calcSunriseUTC_bind, hu]
    simp [sunrisePass, hdec, hrise]
  · intro JD lon u hu hdec
    rw [calcSunsetUTC_bind, hu]
    simp [sunsetPass, hdec, hset]

/-- Witness of the amended C6: latitude 89°, declination 23.44°. -/
theorem calcSunriseUTC_nan_of_acosArg_outside_witness :
    (acosArg 89 23.44 < -1 ∨ 1 < acosArg 89 23.44)
      ∧ calcHourAngleSunrise realLibm 89 23.44 = none
      ∧ calcHourAngleSunset realLibm 89 23.44 = none :=
  ⟨Or.inl acosArg_polar_lt,
    (calcSunriseUTC_nan_of_acosArg_outside 89 23.44 (Or.inl acosArg_polar_lt)).1,
    (calcSunriseUTC_nan_of_acosArg_outside 89 23.44 (Or.inl acosArg_polar_lt)).2.1⟩

/-! ## The exit status and the output of `main` -/

section Main

variable {K : Type} [LinearOrderedField K] [FloorRing K]

/-- A run that reaches `usage()` prints nothing on standard output and exits
with status `-1`. -/
theorem main_of_usage (env : Env) (lib : Libm K) (argv : List (Opt K))
    (h : parseOpts (initArgs env) argv = none) :
    main env lib argv = some { stdout := [], status := -1 } := by
  simp only [main, h]

/-- A run whose option loop ends and whose sunrise and sunset are finite. -/
theorem main_of_finite (env : Env) (lib : Libm K) (argv : List (Opt K)) (a : Args K)
    (r s : K) (hparse : parseOpts (initArgs env) argv = some a)
    (hr : calcSunriseUTC lib (calcJD a.year a.month a.day) a.latitude a.longitude = some r)
    (hs : calcSunsetUTC lib (calcJD a.year a.month a.day) a.latitude a.longitude = some s) :
    main env lib argv = some
      { stdout :=
          (if !a.s_flag && a.rise then
            [env.strftime a.time_fmt (adjusted (env.mktime a.year a.month a.day)
              (env.gmtHour (env.mktime a.year a.month a.day)) a.hm r)] else [])
          ++ (if !a.s_flag && a.set then
            [env.strftime a.time_fmt (adjusted (env.mktime a.year a.month a.day)
              (env.gmtHour (env.mktime a.year a.month a.day)) a.hm s)] else [])
        status :=
          if a.s_flag then
            (if env.now > adjusted (env.mktime a.year a.month a.day)
                (env.gmtHour (env.mktime a.year a.month a.day)) a.hm s then 1
              else if env.now > adjusted (env.mktime a.year a.month a.day)
                (env.gmtHour (env.mktime a.year a.month a.day)) a.hm r then 0 else 1)
          else 0 } := by
  simp only [main, hparse, hr, hs, bind, pure, Option.bind, adjusted]
  split_ifs <;> rfl

end Main

/-! ## Evaluation on the sample instance -/

theorem calcSunriseUTC_sample (JD latitude longitude : ℚ) :
    calcSunriseUTC sampleLibm JD latitude longitude = some (600 + 4 * longitude) := by
  simp [calcSunriseUTC, calcSunDeclination, calcHourAngleSunrise, calcEquationOfTime, fdiv,
    radToDeg, degToRad, sampleLibm]
  norm_num
  ring

theorem calcSunsetUTC_sample (JD latitude longitude : ℚ) :
    calcSunsetUTC sampleLibm JD latitude longitude = some (840 + 4 * longitude) := by
  simp [calcSunsetUTC, calcSunDeclination, calcHourAngleSunset, calcEquationOfTime, fdiv,
    radToDeg, degToRad, sampleLibm]
  norm_num
  ring

theorem adjusted_sample_rise (hm : ℤ) :
    adjusted 946684800 0 hm (609.44 : ℚ) = 946721366 + hm * 3600 := by
  rw [adjusted, toTimeT_eq_of_nonneg _ 946721366 (by norm_num) (by norm_num) (by norm_num)
    (by norm_num)]
  ring

theorem adjusted_sample_set (hm : ℤ) :
    adjusted 946684800 0 hm (849.44 : ℚ) = 946735766 + hm * 3600 := by
  rw [adjusted, toTimeT_eq_of_nonneg _ 946735766 (by norm_num) (by norm_num) (by norm_num)
    (by norm_num)]
  ring

/-- The run `sunrise -s` on the sample instance, for any content of `hm`: the
status is decided by the instants shifted by that content. -/
theorem main_s_sample (hm0 : ℤ) :
    main { sampleEnv with hm0 := hm0 } sampleLibm [Opt.s]
      = some { stdout := [],
               status := if (946728000 : ℤ) > 946735766 + hm0 * 3600 then 1
                 else if (946728000 : ℤ) > 946721366 + hm0 * 3600 then 0 else 1 } := by
  rw [main_of_finite { sampleEnv with hm0 := hm0 } sampleLibm [Opt.s]
    { time_fmt := "%d-%m-%Y  %T", s_flag := true, rise := false, set := false,
      hm := hm0, year := 2000, month := 1, day := 1,
      latitude := (51.38 : ℚ), longitude := 2.36 } 609.44 849.44 rfl
    (by rw [calcSunriseUTC_sample]; norm_num)
    (by rw [calcSunsetUTC_sample]; norm_num)]
  simp [sampleEnv, adjusted_sample_rise, adjusted_sample_set]

/-- C7: `sunrise -s` without `-h` computes with the uninitialised `hm`.  At the
same instant (noon), date and place, sunrise at 609.44 and sunset at 849.44
minutes, two runs that differ only in the indeterminate content of `hm` exit
with status 0 (content 0) and with status 1 (content 5): the status is not
decided by `R < now ≤ S`. -/
theorem main_status_uninitialised_hm :
    main sampleEnv sampleLibm [Opt.s] = some { stdout := [], status := 0 }
      ∧ main { sampleEnv with hm0 := 5 } sampleLibm [Opt.s]
          = some { stdout := [], status := 1 } := by
  constructor
  · have h := main_s_sample 0
    simpa using h
  · have h := main_s_sample 5
    simpa using h

/-- C8: invoked with no options the program prints nothing.  Whenever sunrise
and sunset are finite the run ends with an empty standard output and status 0,
for every system state and every math library: `rise` and `set` start at 0 and
only `-b` and `-e` set them. -/
theorem main_no_options {K : Type} [LinearOrderedField K] [FloorRing K]
    (env : Env) (lib : Libm K) :
    main env lib []
      = (calcSunriseUTC lib (calcJD env.todayYear env.todayMonth env.todayDay) 51.38 2.36).bind
          fun _ =>
            (calcSunsetUTC lib (calcJD env.todayYear env.todayMonth env.todayDay) 51.38 2.36).bind
              fun _ => some { stdout := [], status := 0 } := by
  simp only [main, parseOpts, initArgs, bind, pure]
  cases calcSunriseUTC lib (calcJD env.todayYear env.todayMonth env.todayDay) 51.38 2.36 with
  | none => rfl
  | some r =>
    simp only [Option.bind]
    cases calcSunsetUTC lib (calcJD env.todayYear env.todayMonth env.todayDay) 51.38 2.36 with
    | none => rfl
    | some s => rfl

/-- The run without options on the sample instance: nothing is printed. -/
theorem main_no_options_sample :
    main sampleEnv sampleLibm [] = some { stdout := [], status := 0 } := by
  rw [main_of_finite sampleEnv sampleLibm [] (initArgs sampleEnv) 609.44 849.44 rfl
    (by rw [calcSunriseUTC_sample]; simp [initArgs]; norm_num)
    (by rw [calcSunsetUTC_sample]; simp [initArgs]; norm_num)]
  simp [initArgs]

/-! ## Normalisation of the mean longitude -/

section MeanLongitude

variable {K : Type} [LinearOrderedField K] [FloorRing K]

theorem subLoop_of_not_gt (L : K) (h : ¬ toInt L > 360) : subLoop L = L := by
  rw [subLoop.eq_1 L, if_neg h]

theorem subLoop_of_gt (L : K) (h : toInt L > 360) : subLoop L = subLoop (L - 360.0) := by
  rw [subLoop.eq_1 L, if_pos h]

theorem addLoop_of_not_lt (L : K) (h : ¬ L < 0) : addLoop L = L := by
  rw [addLoop.eq_1 L, if_neg h]

theorem addLoop_of_lt (L : K) (h : L < 0) : addLoop L = addLoop (L + 360.0) := by
  rw [addLoop.eq_1 L, if_pos h]

/-- The first loop ends with `(int) L ≤ 360` after subtracting 360 a whole
number of times. -/
theorem subLoop_spec (L : K) :
    ¬ toInt (subLoop L) > 360 ∧ ∃ k : ℕ, subLoop L = L - 360 * (k : K) := by
  induction L using subLoop.induct with
  | case1 x h ih =>
    rw [subLoop_of_gt x h]
    obtain ⟨h1, k, hk⟩ := ih
    refine ⟨h1, k + 1, ?_⟩
    rw [hk]
    push_cast
    norm_num
    ring
  | case2 x h =>
    rw [subLoop_of_not_gt x h]
    exact ⟨h, 0, by simp⟩

/-- The second loop ends with `0 ≤ L` after adding 360 a whole number of
times; it leaves a non-negative value alone and takes a negative one below 360. -/
theorem addLoop_spec (L : K) :
    0 ≤ addLoop L ∧ (∃ k : ℕ, addLoop L = L + 360 * (k : K))
      ∧ (L < 0 → addLoop L < 360) ∧ (0 ≤ L → addLoop L = L) := by
  induction L using addLoop.induct with
  | case1 x h ih =>
    rw [addLoop_of_lt x h]
    obtain ⟨h0, ⟨k, hk⟩, hlt, hid⟩ := ih
    refine ⟨h0, ⟨k + 1, ?_⟩, fun _ => ?_, fun hx => absurd h (not_lt.mpr hx)⟩
    · rw [hk]
      push_cast
      norm_num
      ring
    · by_cases hneg : x + 360.0 < 0
      · exact hlt hneg
      · rw [hid (not_lt.mp hneg)]
        norm_num
        linarith
  | case2 x h =>
    rw [addLoop_of_not_lt x h]
    exact ⟨not_lt.mp h, ⟨0, by simp⟩, fun hx => absurd hx h, fun _ => rfl⟩

/-- The value of `calcGeomMeanLongSun` is never negative. -/
theorem calcGeomMeanLongSun_nonneg (t : K) : 0 ≤ calcGeomMeanLongSun t := by
  simp only [calcGeomMeanLongSun]
  exact (addLoop_spec (subLoop (280.46646 + t * (36000.76983 + 0.0003032 * t)))).1

/-- While the polynomial value is below `2^31`, the value of
`calcGeomMeanLongSun` lies in `[0, 361)`. -/
theorem calcGeomMeanLongSun_range (t : K)
    (h : 280.46646 + t * (36000.76983 + 0.0003032 * t) < 2147483648) :
    0 ≤ calcGeomMeanLongSun t ∧ calcGeomMeanLongSun t < 361 := by
  refine ⟨calcGeomMeanLongSun_nonneg t, ?_⟩
  simp only [calcGeomMeanLongSun]
  obtain ⟨-, -, hlt, hid⟩ :=
    addLoop_spec (subLoop (280.46646 + t * (36000.76983 + 0.0003032 * t)))
  obtain ⟨hs, k, hk⟩ := subLoop_spec (280.46646 + t * (36000.76983 + 0.0003032 * t))
  by_cases hneg : subLoop (280.46646 + t * (36000.76983 + 0.0003032 * t)) < 0
  · linarith [hlt hneg]
  · have hnn := not_lt.mp hneg
    rw [hid hnn]
    have hk0 : (0 : K) ≤ 360 * (k : K) := by positivity
    exact lt_of_not_toInt_gt _ hs hnn (by rw [hk]; linarith)

/-- From `2^31` on the guard of the first loop fails at once and the polynomial
value is returned as it is. -/
theorem calcGeomMeanLongSun_of_ge (t : K)
    (h : 2147483648 ≤ 280.46646 + t * (36000.76983 + 0.0003032 * t)) :
    calcGeomMeanLongSun t = 280.46646 + t * (36000.76983 + 0.0003032 * t) := by
  simp only [calcGeomMeanLongSun]
  rw [subLoop_of_not_gt _ (by rw [toInt_of_ge _ h]; decide),
    addLoop_of_not_lt _ (by linarith)]

/-- On 23 March 2000 the mean longitude `360.79...` passes both loops unchanged. -/
theorem calcGeomMeanLongSun_2000_03_23 :
    (360 : K) < calcGeomMeanLongSun (calcTimeJulianCent (calcJD 2000 3 23 : K)) := by
  have hjd : (calcJD 2000 3 23 : K) = 2451626.5 := by
    rw [calcJD_eq _ _ _ (by decide) (by decide)]
    norm_num [Int.tdiv]
  rw [hjd]
  simp only [calcGeomMeanLongSun, calcTimeJulianCent]
  have hL : toInt ((280.46646 : K) + (2451626.5 - 2451545.0) / 36525.0
      * (36000.76983 + 0.0003032 * ((2451626.5 - 2451545.0) / 36525.0))) = 360 :=
    toInt_eq_of_nonneg _ 360 (by norm_num) (by norm_num) (by norm_num) (by norm_num)
  rw [subLoop_of_not_gt _ (by rw [hL]; decide), addLoop_of_not_lt _ (by norm_num)]
  norm_num

end MeanLongitude

/-- C9, as the code behaves: for the date 23 March 2000 (`JD = 2451626.5`) the
returned mean longitude is above 360, outside `[0, 360)`: the first loop tests
`(int) L > 360`, which is false on `360.79...`. -/
theorem calcGeomMeanLongSun_above_360 :
    (360 : ℝ) < calcGeomMeanLongSun (calcTimeJulianCent (calcJD 2000 3 23 : ℝ))
      ∧ (360 : ℚ) < calcGeomMeanLongSun (calcTimeJulianCent (calcJD 2000 3 23 : ℚ)) :=
  ⟨calcGeomMeanLongSun_2000_03_23, calcGeomMeanLongSun_2000_03_23⟩

/-- C9, amended: for every Julian century `t` whose polynomial value
`280.46646 + t*(36000.76983 + 0.0003032*t)` is below `2^31`, the bound of
`int`, `calcGeomMeanLongSun t` lies in the half-open interval `[0, 361)`. -/
theorem calcGeomMeanLongSun_mem_Ico {K : Type} [LinearOrderedField K] [FloorRing K] (t : K)
    (h : 280.46646 + t * (36000.76983 + 0.0003032 * t) < 2147483648) :
    calcGeomMeanLongSun t ∈ Set.Ico (0 : K) 361 :=
  calcGeomMeanLongSun_range t h

/-- Witness of the amended C9: `t = 0`, where the polynomial value is 280.46646. -/
theorem calcGeomMeanLongSun_mem_Ico_witness :
    (280.46646 : ℚ) + 0 * (36000.76983 + 0.0003032 * 0) < 2147483648
      ∧ calcGeomMeanLongSun (0 : ℚ) ∈ Set.Ico (0 : ℚ) 361 :=
  ⟨by norm_num, calcGeomMeanLongSun_mem_Ico 0 (by norm_num)⟩

/-! ## The mean longitude enters only through sines and cosines -/

theorem shiftsByTurns_loops : ShiftsByTurns (fun L => addLoop (subLoop L)) := by
  intro L
  obtain ⟨-, k1, h1⟩ := subLoop_spec L
  obtain ⟨-, ⟨k2, h2⟩, -, -⟩ := addLoop_spec (subLoop L)
  refine ⟨(k2 : ℤ) - (k1 : ℤ), ?_⟩
  show addLoop (subLoop L) = _
  rw [h2, h1]
  push_cast
  ring

theorem shiftsByTurns_mod360 : ShiftsByTurns mod360 := by
  intro L
  refine ⟨-⌊L / 360⌋, ?_⟩
  simp only [mod360]
  push_cast
  ring

theorem shiftsByTurns_id : ShiftsByTurns id := by
  intro L
  exact ⟨0, by simp⟩

theorem sin_degToRad_add_turns (x : ℝ) (k : ℤ) :
    realLibm.sin (degToRad realLibm (x + 360 * (k : ℝ))) = realLibm.sin (degToRad realLibm x) := by
  have h : degToRad realLibm (x + 360 * (k : ℝ))
      = degToRad realLibm x + (k : ℝ) * (2 * Real.pi) := by
    simp only [degToRad_real]; ring
  rw [h]
  exact Real.sin_add_int_mul_two_pi _ k

theorem sin_two_degToRad_add_turns (x : ℝ) (k : ℤ) :
    realLibm.sin (2.0 * degToRad realLibm (x + 360 * (k : ℝ)))
      = realLibm.sin (2.0 * degToRad realLibm x) := by
  have h : (2.0 : ℝ) * degToRad realLibm (x + 360 * (k : ℝ))
      = 2.0 * degToRad realLibm x + ((2 * k : ℤ) : ℝ) * (2 * Real.pi) := by
    simp only [degToRad_real]; push_cast; ring
  rw [h]
  exact Real.sin_add_int_mul_two_pi _ (2 * k)

theorem cos_two_degToRad_add_turns (x : ℝ) (k : ℤ) :
    realLibm.cos (2.0 * degToRad realLibm (x + 360 * (k : ℝ)))
      = realLibm.cos (2.0 * degToRad realLibm x) := by
  have h : (2.0 : ℝ) * degToRad realLibm (x + 360 * (k : ℝ))
      = 2.0 * degToRad realLibm x + ((2 * k : ℤ) : ℝ) * (2 * Real.pi) := by
    simp only [degToRad_real]; push_cast; ring
  rw [h]
  exact Real.cos_add_int_mul_two_pi _ (2 * k)

theorem sin_four_degToRad_add_turns (x : ℝ) (k : ℤ) :
    realLibm.sin (4.0 * degToRad realLibm (x + 360 * (k : ℝ)))
      = realLibm.sin (4.0 * degToRad realLibm x) := by
  have h : (4.0 : ℝ) * degToRad realLibm (x + 360 * (k : ℝ))
      = 4.0 * degToRad realLibm x + ((4 * k : ℤ) : ℝ) * (2 * Real.pi) := by
    simp only [degToRad_real]; push_cast; ring
  rw [h]
  exact Real.sin_add_int_mul_two_pi _ (4 * k)

/-- The equation of time does not see a whole number of turns of the mean
longitude. -/
theorem calcEquationOfTimeWith_eq_raw (norm : ℝ → ℝ) (h : ShiftsByTurns norm) (t : ℝ) :
    calcEquationOfTimeWith norm realLibm t = calcEquationOfTimeWith id realLibm t := by
  obtain ⟨k, hk⟩ := h (280.46646 + t * (36000.76983 + 0.0003032 * t))
  simp only [calcEquationOfTimeWith, calcGeomMeanLongSunWith, hk, id,
    sin_two_degToRad_add_turns, cos_two_degToRad_add_turns, sin_four_degToRad_add_turns]

/-- The declination does not see a whole number of turns of the mean
longitude. -/
theorem calcSunDeclinationWith_eq_raw (norm : ℝ → ℝ) (h : ShiftsByTurns norm) (t : ℝ) :
    calcSunDeclinationWith norm realLibm t = calcSunDeclinationWith id realLibm t := by
  obtain ⟨k, hk⟩ := h (280.46646 + t * (36000.76983 + 0.0003032 * t))
  have hl : calcSunApparentLongWith norm realLibm t
      = calcSunApparentLongWith id realLibm t + 360 * (k : ℝ) := by
    simp only [calcSunApparentLongWith, calcSunTrueLongWith, calcGeomMeanLongSunWith, hk, id]
    ring
  simp only [calcSunDeclinationWith, hl, sin_degToRad_add_turns]

theorem calcSunriseUTCWith_eq_raw (norm : ℝ → ℝ) (h : ShiftsByTurns norm)
    (JD latitude longitude : ℝ) :
    calcSunriseUTCWith norm realLibm JD latitude longitude
      = calcSunriseUTCWith id realLibm JD latitude longitude := by
  simp only [calcSunriseUTCWith, calcEquationOfTimeWith_eq_raw norm h,
    calcSunDeclinationWith_eq_raw norm h]

theorem calcSunsetUTCWith_eq_raw (norm : ℝ → ℝ) (h : ShiftsByTurns norm)
    (JD latitude longitude : ℝ) :
    calcSunsetUTCWith norm realLibm JD latitude longitude
      = calcSunsetUTCWith id realLibm JD latitude longitude := by
  simp only [calcSunsetUTCWith, calcEquationOfTimeWith_eq_raw norm h,
    calcSunDeclinationWith_eq_raw norm h]

/-- The source routines are the variant routines at the two loops. -/
theorem calcEquationOfTime_eq_with {K : Type} [LinearOrderedField K] [FloorRing K]
    (m : Libm K) (t : K) :
    calcEquationOfTime m t = calcEquationOfTimeWith (fun L => addLoop (subLoop L)) m t :=
  rfl

theorem calcSunDeclination_eq_with {K : Type} [LinearOrderedField K] [FloorRing K]
    (m : Libm K) (t : K) :
    calcSunDeclination m t = calcSunDeclinationWith (fun L => addLoop (subLoop L)) m t :=
  rfl

theorem calcSunriseUTC_eq_with {K : Type} [LinearOrderedField K] [FloorRing K]
    (m : Libm K) (JD latitude longitude : K) :
    calcSunriseUTC m JD latitude longitude
      = calcSunriseUTCWith (fun L => addLoop (subLoop L)) m JD latitude longitude :=
  rfl

theorem calcSunsetUTC_eq_with {K : Type} [LinearOrderedField K] [FloorRing K]
    (m : Libm K) (JD latitude longitude : K) :
    calcSunsetUTC m JD latitude longitude
      = calcSunsetUTCWith (fun L => addLoop (subLoop L)) m JD latitude longitude :=
  rfl

/-- C10, amended: in exact real arithmetic with `M_PI` read as `π`, replacing the
loop normalisation of `calcGeomMeanLongSun` by a true modulo-360 reduction, or
by no normalisation at all, changes no downstream result: `calcEquationOfTime`,
`calcSunDeclination`, `calcSunriseUTC` and `calcSunsetUTC` are equal in all
three versions. -/
theorem normalisation_irrelevant (t JD latitude longitude : ℝ) :
    (calcEquationOfTimeWith mod360 realLibm t = calcEquationOfTime realLibm t
      ∧ calcSunDeclinationWith mod360 realLibm t = calcSunDeclination realLibm t
      ∧ calcSunriseUTCWith mod360 realLibm JD latitude longitude
          = calcSunriseUTC realLibm JD latitude longitude
      ∧ calcSunsetUTCWith mod360 realLibm JD latitude longitude
          = calcSunsetUTC realLibm JD latitude longitude)
    ∧ (calcEquationOfTimeWith id realLibm t = calcEquationOfTime realLibm t
      ∧ calcSunDeclinationWith id realLibm t = calcSunDeclination realLibm t
      ∧ calcSunriseUTCWith id realLibm JD latitude longitude
          = calcSunriseUTC realLibm JD latitude longitude
      ∧ calcSunsetUTCWith id realLibm JD latitude longitude
          = calcSunsetUTC realLibm JD latitude longitude) := by
  have e1 := calcEquationOfTimeWith_eq_raw _ shiftsByTurns_loops t
  have e2 := calcSunDeclinationWith_eq_raw _ shiftsByTurns_loops t
  have e3 := calcSunriseUTCWith_eq_raw _ shiftsByTurns_loops JD latitude longitude
  have e4 := calcSunsetUTCWith_eq_raw _ shiftsByTurns_loops JD latitude longitude
  rw [← calcEquationOfTime_eq_with] at e1
  rw [← calcSunDeclination_eq_with] at e2
  rw [← calcSunriseUTC_eq_with] at e3
  rw [← calcSunsetUTC_eq_with] at e4
  refine ⟨⟨?_, ?_, ?_, ?_⟩, e1.symm, e2.symm, e3.symm, e4.symm⟩
  · rw [e1, calcEquationOfTimeWith_eq_raw _ shiftsByTurns_mod360]
  · rw [e2, calcSunDeclinationWith_eq_raw _ shiftsByTurns_mod360]
  · rw [e3, calcSunriseUTCWith_eq_raw _ shiftsByTurns_mod360]
  · rw [e4, calcSunsetUTCWith_eq_raw _ shiftsByTurns_mod360]

/-! ## The rounded `M_PI` -/

theorem roundedPi_lt_pi : (884279719003555 / 281474976710656 : ℝ) < Real.pi := by
  have := Real.pi_gt_d20
  have h : (884279719003555 / 281474976710656 : ℝ) < 3.14159265358979323846 := by norm_num
  linarith

theorem roundedPi_gt : (3.1415 : ℝ) < 884279719003555 / 281474976710656 := by norm_num

/-- With the rounded `M_PI` a whole turn of 360 degrees is a little less than
`2π` radians, and the sine of an angle near a multiple of 360 degrees drops when
a turn is added. -/
theorem sin_rounded_add_turn_lt (x : ℝ) (h1 : 350 ≤ x) (h2 : x ≤ 370) :
    Real.sin (884279719003555 / 281474976710656 * (x + 360) / 180)
      < Real.sin (884279719003555 / 281474976710656 * x / 180) := by
  have hP := roundedPi_lt_pi
  have hP2 := roundedPi_gt
  have hpi := Real.pi_gt_d2
  have hpi2 := Real.pi_lt_d2
  have e1 : Real.sin (884279719003555 / 281474976710656 * (x + 360) / 180)
      = Real.sin (884279719003555 / 281474976710656 * (x + 360) / 180 - 2 * Real.pi - 2 * Real.pi) := by
    rw [Real.sin_sub_two_pi, Real.sin_sub_two_pi]
  have e2 : Real.sin (884279719003555 / 281474976710656 * x / 180)
      = Real.sin (884279719003555 / 281474976710656 * x / 180 - 2 * Real.pi) := by
    rw [Real.sin_sub_two_pi]
  rw [e1, e2]
  apply Real.sin_lt_sin_of_lt_of_le_pi_div_two
  · nlinarith
  · nlinarith
  · nlinarith

theorem calcSunDeclinationWith_rounded (norm : ℝ → ℝ) (t : ℝ) :
    calcSunDeclinationWith norm roundedPiLibm t
      = some (radToDeg roundedPiLibm (Real.arcsin
          (Real.sin (degToRad roundedPiLibm (calcObliquityCorrection roundedPiLibm t))
            * Real.sin (degToRad roundedPiLibm (calcSunApparentLongWith norm roundedPiLibm t))))) := by
  have hb : ∀ a b : ℝ, -1 ≤ Real.sin a * Real.sin b ∧ Real.sin a * Real.sin b ≤ 1 := by
    intro a b
    have h := abs_le.mp (show |Real.sin a * Real.sin b| ≤ 1 by
      rw [abs_mul]
      exact mul_le_one₀ (Real.abs_sin_le_one a) (abs_nonneg _) (Real.abs_sin_le_one b))
    exact h
  simp only [calcSunDeclinationWith, bind, pure]
  simp only [roundedPiLibm, realLibm, if_pos (hb _ _)]
  rfl

/-- On 22 March 2001 (`JD = 2451990.5`) the first loop runs once: the
polynomial value 719.57... is reduced to 359.57... -/
theorem calcGeomMeanLongSun_2001_03_22 :
    (280.46646 : ℝ) + 297 / 24350 * (36000.76983 + 0.0003032 * (297 / 24350)) - 360
      = addLoop (subLoop ((280.46646 : ℝ) + 297 / 24350 * (36000.76983 + 0.0003032 * (297 / 24350)))) := by
  have h1 : toInt ((280.46646 : ℝ) + 297 / 24350 * (36000.76983 + 0.0003032 * (297 / 24350)))
      = 719 :=
    toInt_eq_of_nonneg _ 719 (by norm_num) (by norm_num) (by norm_num) (by norm_num)
  have h2 : toInt ((280.46646 : ℝ) + 297 / 24350 * (36000.76983 + 0.0003032 * (297 / 24350))
      - 360.0) = 359 :=
    toInt_eq_of_nonneg _ 359 (by norm_num) (by norm_num) (by norm_num) (by norm_num)
  rw [subLoop_of_gt _ (by rw [h1]; decide), subLoop_of_not_gt _ (by rw [h2]; decide),
    addLoop_of_not_lt _ (by norm_num)]
  norm_num

theorem apparentLong_bounds (L s1 s2 s3 s4 : ℝ) (hL1 : 359 ≤ L) (hL2 : L ≤ 360)
    (h1 : -1 ≤ s1) (h1' : s1 ≤ 1) (h2 : -1 ≤ s2) (h2' : s2 ≤ 1)
    (h3 : -1 ≤ s3) (h3' : s3 ≤ 1) (h4 : -1 ≤ s4) (h4' : s4 ≤ 1) :
    350 ≤ L + (s1 * (1.914602 - 297 / 24350 * (0.004817 + 0.000014 * (297 / 24350)))
          + s2 * (0.019993 - 0.000101 * (297 / 24350)) + s3 * 0.000289)
        - 0.00569 - 0.00478 * s4
      ∧ L + (s1 * (1.914602 - 297 / 24350 * (0.004817 + 0.000014 * (297 / 24350)))
          + s2 * (0.019993 - 0.000101 * (297 / 24350)) + s3 * 0.000289)
        - 0.00569 - 0.00478 * s4 ≤ 370 := by
  constructor <;> norm_num <;> linarith

theorem calcSunApparentLongWith_loops_bounds :
    350 ≤ calcSunApparentLongWith (fun L => addLoop (subLoop L)) roundedPiLibm (297 / 24350)
      ∧ calcSunApparentLongWith (fun L => addLoop (subLoop L)) roundedPiLibm (297 / 24350) ≤ 370 := by
  simp only [calcSunApparentLongWith, calcSunTrueLongWith, calcGeomMeanLongSunWith,
    calcSunEqOfCenter, ← calcGeomMeanLongSun_2001_03_22]
  exact apparentLong_bounds _ _ _ _ _ (by norm_num) (by norm_num)
    (Real.neg_one_le_sin _) (Real.sin_le_one _) (Real.neg_one_le_sin _) (Real.sin_le_one _)
    (Real.neg_one_le_sin _) (Real.sin_le_one _) (Real.neg_one_le_sin _) (Real.sin_le_one _)

theorem calcSunApparentLongWith_id_eq :
    calcSunApparentLongWith id roundedPiLibm (297 / 24350)
      = calcSunApparentLongWith (fun L => addLoop (subLoop L)) roundedPiLibm (297 / 24350)
        + 360 := by
  simp only [calcSunApparentLongWith, calcSunTrueLongWith, calcGeomMeanLongSunWith, id,
    ← calcGeomMeanLongSun_2001_03_22]
  ring

/-- The sine of the obliquity is positive on 22 March 2001. -/
theorem sin_obliquity_pos :
    0 < Real.sin (degToRad roundedPiLibm (calcObliquityCorrection roundedPiLibm (297 / 24350))) := by
  have hP := roundedPi_lt_pi
  have hb : 23 ≤ calcObliquityCorrection roundedPiLibm (297 / 24350)
      ∧ calcObliquityCorrection roundedPiLibm (297 / 24350) ≤ 24 := by
    simp only [calcObliquityCorrection, calcMeanObliquityOfEcliptic]
    have h1 := Real.neg_one_le_cos (degToRad roundedPiLibm (125.04 - 1934.136 * (297 / 24350)))
    have h2 := Real.cos_le_one (degToRad roundedPiLibm (125.04 - 1934.136 * (297 / 24350)))
    have e : roundedPiLibm.cos = Real.cos := rfl
    rw [e]
    constructor <;> norm_num <;> linarith
  have e : degToRad roundedPiLibm (calcObliquityCorrection roundedPiLibm (297 / 24350))
      = 884279719003555 / 281474976710656
        * calcObliquityCorrection roundedPiLibm (297 / 24350) / 180 := by
    simp only [degToRad, roundedPiLibm]; norm_num
  rw [e]
  apply Real.sin_pos_of_pos_of_lt_pi
  · have := hb.1
    positivity
  · have := hb.2
    nlinarith [Real.pi_gt_three]

/-- C10, as the code behaves: the program converts degrees with the double
`M_PI`, which is below `π`.  Already with this one rounding, and everything else
exact, the declination for 22 March 2001 (`JD = 2451990.5`) computed without
normalisation differs from the declination the program computes. -/
theorem calcSunDeclination_rounded_pi_ne :
    calcSunDeclinationWith id roundedPiLibm (calcTimeJulianCent 2451990.5)
      ≠ calcSunDeclination roundedPiLibm (calcTimeJulianCent 2451990.5) := by
  have ht : calcTimeJulianCent (2451990.5 : ℝ) = 297 / 24350 := by
    simp only [calcTimeJulianCent]; norm_num
  rw [ht, calcSunDeclination_eq_with, calcSunDeclinationWith_rounded,
    calcSunDeclinationWith_rounded, calcSunApparentLongWith_id_eq]
  obtain ⟨hl1, hl2⟩ := calcSunApparentLongWith_loops_bounds
  have hs := sin_obliquity_pos
  have hd : ∀ x : ℝ, degToRad roundedPiLibm x = 884279719003555 / 281474976710656 * x / 180 := by
    intro x; simp only [degToRad, roundedPiLibm]; norm_num
  have hlt := sin_rounded_add_turn_lt _ hl1 hl2
  rw [← hd, ← hd] at hlt
  have hprod := mul_lt_mul_of_pos_left hlt hs
  have hmem : ∀ a b : ℝ, Real.sin a * Real.sin b ∈ Set.Icc (-1 : ℝ) 1 := by
    intro a b
    exact abs_le.mp (show |Real.sin a * Real.sin b| ≤ 1 by
      rw [abs_mul]
      exact mul_le_one₀ (Real.abs_sin_le_one a) (abs_nonneg _) (Real.abs_sin_le_one b))
  have harc := Real.strictMonoOn_arcsin (hmem _ _) (hmem _ _) hprod
  have hr : ∀ x y : ℝ, x < y → radToDeg roundedPiLibm x < radToDeg roundedPiLibm y := by
    intro x y hxy
    simp only [radToDeg, roundedPiLibm]
    apply div_lt_div_of_pos_right _ (by norm_num)
    norm_num
    exact hxy
  intro h
  have h' := Option.some.inj h
  have hlt2 := hr _ _ harc
  rw [h'] at hlt2
  exact lt_irrefl _ hlt2

/-! ## Termination and iteration count of the normalisation loops -/

section LoopCount

variable {K : Type} [LinearOrderedField K] [FloorRing K]

theorem subLoopCount_of_not_gt (L : K) (h : ¬ toInt L > 360) : subLoopCount L = 0 := by
  rw [subLoopCount.eq_1 L, if_neg h]

theorem subLoopCount_of_gt (L : K) (h : toInt L > 360) :
    subLoopCount L = subLoopCount (L - 360.0) + 1 := by
  rw [subLoopCount.eq_1 L, if_pos h]

theorem addLoopCount_of_not_lt (L : K) (h : ¬ L < 0) : addLoopCount L = 0 := by
  rw [addLoopCount.eq_1 L, if_neg h]

theorem addLoopCount_of_lt (L : K) (h : L < 0) :
    addLoopCount L = addLoopCount (L + 360.0) + 1 := by
  rw [addLoopCount.eq_1 L, if_pos h]

/-- The first loop runs its body `subLoopCount L` times: the guard holds before
each of these iterations and fails after the last. -/
theorem subLoop_count_spec (L : K) :
    subLoop L = L - 360 * (subLoopCount L : K)
      ∧ (∀ j : ℕ, j < subLoopCount L → toInt (L - 360 * (j : K)) > 360)
      ∧ ¬ toInt (L - 360 * (subLoopCount L : K)) > 360 := by
  induction L using subLoop.induct with
  | case1 x h ih =>
    obtain ⟨h1, h2, h3⟩ := ih
    have hx : ∀ c : K, x - 360.0 - 360 * c = x - 360 * (c + 1) := fun c => by
      norm_num; ring
    rw [subLoop_of_gt x h, subLoopCount_of_gt x h]
    refine ⟨?_, ?_, ?_⟩
    · rw [h1, hx]; push_cast; rfl
    · intro j hj
      cases j with
      | zero => simpa using h
      | succ i =>
        have := h2 i (by omega)
        rw [hx] at this
        push_cast
        exact this
    · rw [hx] at h3
      push_cast
      exact h3
  | case2 x h =>
    rw [subLoop_of_not_gt x h, subLoopCount_of_not_gt x h]
    refine ⟨by simp, fun j hj => absurd hj (Nat.not_lt_zero j), by simpa using h⟩

/-- The second loop runs its body `addLoopCount L` times: the guard holds
before each of these iterations and fails after the last. -/
theorem addLoop_count_spec (L : K) :
    addLoop L = L + 360 * (addLoopCount L : K)
      ∧ (∀ j : ℕ, j < addLoopCount L → L + 360 * (j : K) < 0)
      ∧ ¬ L + 360 * (addLoopCount L : K) < 0 := by
  induction L using addLoop.induct with
  | case1 x h ih =>
    obtain ⟨h1, h2, h3⟩ := ih
    have hx : ∀ c : K, x + 360.0 + 360 * c = x + 360 * (c + 1) := fun c => by
      norm_num; ring
    rw [addLoop_of_lt x h, addLoopCount_of_lt x h]
    refine ⟨?_, ?_, ?_⟩
    · rw [h1, hx]; push_cast; rfl
    · intro j hj
      cases j with
      | zero => simpa using h
      | succ i =>
        have := h2 i (by omega)
        rw [hx] at this
        push_cast
        exact this
    · rw [hx] at h3
      push_cast
      exact h3
  | case2 x h =>
    rw [addLoop_of_not_lt x h, addLoopCount_of_not_lt x h]
    refine ⟨by simp, fun j hj => absurd hj (Nat.not_lt_zero j), by simpa using h⟩

/-- Between 1900 and 2100 the loops run at most 100 times in total. -/
theorem calcGeomMeanLongSunIterations_le (t : K) (h1 : -1 ≤ t) (h2 : t ≤ 1) :
    calcGeomMeanLongSunIterations t ≤ 100 := by
  simp only [calcGeomMeanLongSunIterations]
  have hup : (280.46646 : K) + t * (36000.76983 + 0.0003032 * t) < 36282 := by
    nlinarith [mul_nonneg (sub_nonneg.mpr h2) (sub_nonneg.mpr (show (-1 : K) ≤ t from h1))]
  have hlo : (-35721 : K) < 280.46646 + t * (36000.76983 + 0.0003032 * t) := by
    nlinarith [mul_nonneg (sub_nonneg.mpr h2) (sub_nonneg.mpr (show (-1 : K) ≤ t from h1))]
  obtain ⟨s1, s2, -⟩ := subLoop_count_spec ((280.46646 : K) + t * (36000.76983 + 0.0003032 * t))
  obtain ⟨-, a2, -⟩ :=
    addLoop_count_spec (subLoop ((280.46646 : K) + t * (36000.76983 + 0.0003032 * t)))
  by_contra hcon
  have hgt : 100 < subLoopCount ((280.46646 : K) + t * (36000.76983 + 0.0003032 * t))
      + addLoopCount (subLoop ((280.46646 : K) + t * (36000.76983 + 0.0003032 * t))) := by
    omega
  by_cases hz : subLoopCount ((280.46646 : K) + t * (36000.76983 + 0.0003032 * t)) = 0
  · -- only the second loop runs
    rw [hz] at hgt s1
    have hj := a2 100 (by omega)
    rw [s1] at hj
    norm_num at hj
    linarith
  · -- the first loop runs, and leaves a positive value
    have hlast := s2 (subLoopCount ((280.46646 : K) + t * (36000.76983 + 0.0003032 * t)) - 1)
      (by omega)
    have h361 := (le_of_toInt_gt _ hlast).1
    have hcast : ((subLoopCount ((280.46646 : K) + t * (36000.76983 + 0.0003032 * t)) - 1 : ℕ) : K)
        = (subLoopCount ((280.46646 : K) + t * (36000.76983 + 0.0003032 * t)) : K) - 1 := by
      rw [Nat.cast_sub (by omega)]; simp
    rw [hcast] at h361
    have hpos : ¬ subLoop ((280.46646 : K) + t * (36000.76983 + 0.0003032 * t)) < 0 := by
      rw [s1]; linarith
    rw [addLoopCount_of_not_lt _ hpos] at hgt
    have h100 := (le_of_toInt_gt _ (s2 100 (by omega))).1
    norm_num at h100
    linarith

end LoopCount

/-- C11: the two normalisation loops of `calcGeomMeanLongSun` terminate for every
`t`: the first runs `n1` times and the second `n2` times, the guards holding
before each iteration and failing after the last; and for `-1 ≤ t ≤ 1` they run
at most 100 times in total. -/
theorem calcGeomMeanLongSun_loops_terminate {K : Type} [LinearOrderedField K] [FloorRing K]
    (t : K) :
    (∃ n1 n2 : ℕ, calcGeomMeanLongSunIterations t = n1 + n2
      ∧ (∀ j : ℕ, j < n1 →
          toInt (280.46646 + t * (36000.76983 + 0.0003032 * t) - 360 * (j : K)) > 360)
      ∧ ¬ toInt (280.46646 + t * (36000.76983 + 0.0003032 * t) - 360 * (n1 : K)) > 360
      ∧ (∀ j : ℕ, j < n2 →
          280.46646 + t * (36000.76983 + 0.0003032 * t) - 360 * (n1 : K) + 360 * (j : K) < 0)
      ∧ ¬ 280.46646 + t * (36000.76983 + 0.0003032 * t) - 360 * (n1 : K) + 360 * (n2 : K) < 0
      ∧ calcGeomMeanLongSun t
          = 280.46646 + t * (36000.76983 + 0.0003032 * t) - 360 * (n1 : K) + 360 * (n2 : K))
    ∧ (-1 ≤ t → t ≤ 1 → calcGeomMeanLongSunIterations t ≤ 100) := by
  refine ⟨?_, calcGeomMeanLongSunIterations_le t⟩
  obtain ⟨s1, s2, s3⟩ := subLoop_count_spec ((280.46646 : K) + t * (36000.76983 + 0.0003032 * t))
  obtain ⟨a1, a2, a3⟩ :=
    addLoop_count_spec (subLoop ((280.46646 : K) + t * (36000.76983 + 0.0003032 * t)))
  rw [s1] at a1 a2 a3
  refine ⟨_, _, rfl, s2, s3, ?_, ?_, ?_⟩
  · rw [s1]; exact a2
  · rw [s1]; exact a3
  · simp only [calcGeomMeanLongSun]
    rw [s1]; exact a1

/-- Witness of C11: at `t = 1` (the year 2100) the bound of 100 iterations holds. -/
theorem calcGeomMeanLongSun_loops_terminate_witness :
    (-1 : ℚ) ≤ 1 ∧ (1 : ℚ) ≤ 1 ∧ calcGeomMeanLongSunIterations (1 : ℚ) ≤ 100 :=
  ⟨by norm_num, le_refl _,
    (calcGeomMeanLongSun_loops_terminate (1 : ℚ)).2 (by norm_num) (le_refl _)⟩

/-- C13, as the code behaves: at `t = 60000` the polynomial value
`2161137990.26646` is beyond the range of `int`, the guard `(int) L > 360` is
false at once, and the value is returned unreduced, far above 361. -/
theorem calcGeomMeanLongSun_60000 :
    calcGeomMeanLongSun (60000 : ℝ) = 2161137990.26646
      ∧ ¬ calcGeomMeanLongSun (60000 : ℝ) < 361 := by
  have h : calcGeomMeanLongSun (60000 : ℝ) = 2161137990.26646 := by
    rw [calcGeomMeanLongSun_of_ge _ (by norm_num)]
    norm_num
  refine ⟨h, ?_⟩
  rw [h]
  norm_num

/-- C13, amended: the value `r` of `calcGeomMeanLongSun t` satisfies `0 ≤ r`, and
`r - (280.46646 + t*(36000.76983 + 0.0003032*t))` is an integer multiple of 360,
for every `t`; and `r < 361` whenever the polynomial value is below `2^31`. -/
theorem calcGeomMeanLongSun_congruent {K : Type} [LinearOrderedField K] [FloorRing K] (t : K) :
    0 ≤ calcGeomMeanLongSun t
      ∧ (∃ k : ℤ, calcGeomMeanLongSun t - (280.46646 + t * (36000.76983 + 0.0003032 * t))
          = 360 * (k : K))
      ∧ (280.46646 + t * (36000.76983 + 0.0003032 * t) < 2147483648 →
          calcGeomMeanLongSun t < 361) := by
  refine ⟨calcGeomMeanLongSun_nonneg t, ?_, fun h => (calcGeomMeanLongSun_range t h).2⟩
  obtain ⟨-, k1, e1⟩ := subLoop_spec ((280.46646 : K) + t * (36000.76983 + 0.0003032 * t))
  obtain ⟨-, ⟨k2, e2⟩, -, -⟩ :=
    addLoop_spec (subLoop ((280.46646 : K) + t * (36000.76983 + 0.0003032 * t)))
  refine ⟨(k2 : ℤ) - (k1 : ℤ), ?_⟩
  simp only [calcGeomMeanLongSun]
  rw [e2, e1]
  push_cast
  ring

/-- Witness of the amended C13: `t = 1` (the year 2100), where the polynomial
value 36281.23... is below `2^31`. -/
theorem calcGeomMeanLongSun_congruent_witness :
    (280.46646 : ℚ) + 1 * (36000.76983 + 0.0003032 * 1) < 2147483648
      ∧ calcGeomMeanLongSun (1 : ℚ) < 361 :=
  ⟨by norm_num, (calcGeomMeanLongSun_congruent (1 : ℚ)).2.2 (by norm_num)⟩

/-! ## Symmetries and bounds of the hour angle and the declination -/

theorem acosArg_neg_neg (lat dec : ℝ) : acosArg (-lat) (-dec) = acosArg lat dec := by
  have h1 : Real.pi * -lat / 180 = -(Real.pi * lat / 180) := by ring
  have h2 : Real.pi * -dec / 180 = -(Real.pi * dec / 180) := by ring
  simp only [acosArg, h1, h2, Real.cos_neg, Real.tan_neg]
  ring

/-- C16: hemisphere mirror symmetry: negating both the latitude and the
declination changes neither hour angle. -/
theorem calcHourAngle_neg_neg (lat dec : ℝ) :
    calcHourAngleSunrise realLibm (-lat) (-dec) = calcHourAngleSunrise realLibm lat dec
      ∧ calcHourAngleSunset realLibm (-lat) (-dec) = calcHourAngleSunset realLibm lat dec := by
  have h1 : Real.pi * -lat / 180 = -(Real.pi * lat / 180) := by ring
  have h2 : Real.pi * -dec / 180 = -(Real.pi * dec / 180) := by ring
  have hrise : calcHourAngleSunrise realLibm (-lat) (-dec)
      = calcHourAngleSunrise realLibm lat dec := by
    rw [calcHourAngleSunrise_real, calcHourAngleSunrise_real, acosArg_neg_neg, h1, h2,
      Real.cos_neg, Real.cos_neg]
  exact ⟨hrise, by rw [calcHourAngleSunset_eq_map, calcHourAngleSunset_eq_map, hrise]⟩

/-- The declination in degrees is at most 90 in absolute value, and at most
the obliquity when that lies between 0 and 90 degrees. -/
theorem radToDeg_arcsin_bounds (e s : ℝ) :
    -90 ≤ radToDeg realLibm (Real.arcsin (Real.sin (degToRad realLibm e) * s))
      ∧ radToDeg realLibm (Real.arcsin (Real.sin (degToRad realLibm e) * s)) ≤ 90
      ∧ (0 ≤ e → e ≤ 90 → -1 ≤ s → s ≤ 1 →
          |radToDeg realLibm (Real.arcsin (Real.sin (degToRad realLibm e) * s))| ≤ e) := by
  have hpi := Real.pi_pos
  have hlo := Real.neg_pi_div_two_le_arcsin (Real.sin (degToRad realLibm e) * s)
  have hhi := Real.arcsin_le_pi_div_two (Real.sin (degToRad realLibm e) * s)
  rw [radToDeg_real]
  refine ⟨?_, ?_, ?_⟩
  · rw [le_div_iff₀ hpi]; linarith
  · rw [div_le_iff₀ hpi]; linarith
  · intro he0 he90 hs1 hs2
    rw [degToRad_real] at *
    have hr0 : 0 ≤ Real.pi * e / 180 := by positivity
    have hr1 : Real.pi * e / 180 ≤ Real.pi / 2 := by
      rw [div_le_div_iff₀ (by norm_num) (by norm_num)]
      nlinarith
    have hsin : 0 ≤ Real.sin (Real.pi * e / 180) :=
      Real.sin_nonneg_of_nonneg_of_le_pi hr0 (by linarith)
    have hle : Real.sin (Real.pi * e / 180) * s ≤ Real.sin (Real.pi * e / 180) := by
      nlinarith
    have hge : -Real.sin (Real.pi * e / 180) ≤ Real.sin (Real.pi * e / 180) * s := by
      nlinarith
    have h1 : Real.arcsin (Real.sin (Real.pi * e / 180) * s) ≤ Real.pi * e / 180 := by
      have := Real.monotone_arcsin hle
      rwa [Real.arcsin_sin (by linarith) hr1] at this
    have h2 : -(Real.pi * e / 180) ≤ Real.arcsin (Real.sin (Real.pi * e / 180) * s) := by
      have := Real.monotone_arcsin hge
      rwa [Real.arcsin_neg, Real.arcsin_sin (by linarith) hr1] at this
    rw [abs_le]
    constructor
    · rw [le_div_iff₀ hpi]; nlinarith
    · rw [div_le_iff₀ hpi]; nlinarith

/-- C15: the solar declination lies in `[-90, 90]`, and whenever the corrected
obliquity lies in `[0, 90]` the absolute declination is at most the obliquity. -/
theorem calcSunDeclination_le_obliquity (t : ℝ) :
    ∃ theta : ℝ, calcSunDeclination realLibm t = some theta
      ∧ -90 ≤ theta ∧ theta ≤ 90
      ∧ (0 ≤ calcObliquityCorrection realLibm t → calcObliquityCorrection realLibm t ≤ 90 →
          |theta| ≤ calcObliquityCorrection realLibm t) := by
  refine ⟨_, calcSunDeclination_real t, ?_⟩
  obtain ⟨h1, h2, h3⟩ := radToDeg_arcsin_bounds (calcObliquityCorrection realLibm t)
    (Real.sin (degToRad realLibm (calcSunApparentLong realLibm t)))
  exact ⟨h1, h2, fun a b => h3 a b (Real.neg_one_le_sin _) (Real.sin_le_one _)⟩

/-- At `t = 0` (1 January 2000, noon) the corrected obliquity is about 23.44 degrees. -/
theorem calcObliquityCorrection_zero :
    0 ≤ calcObliquityCorrection realLibm 0 ∧ calcObliquityCorrection realLibm 0 ≤ 90 := by
  simp only [calcObliquityCorrection, calcMeanObliquityOfEcliptic, realLibm]
  have h1 := Real.neg_one_le_cos (degToRad realLibm (125.04 - 1934.136 * 0))
  have h2 := Real.cos_le_one (degToRad realLibm (125.04 - 1934.136 * 0))
  simp only [realLibm] at h1 h2
  constructor <;> norm_num <;> linarith

/-- Witness of C15: at `t = 0` the obliquity is in `[0, 90]` and bounds the
declination. -/
theorem calcSunDeclination_le_obliquity_witness :
    0 ≤ calcObliquityCorrection realLibm 0 ∧ calcObliquityCorrection realLibm 0 ≤ 90
      ∧ ∃ theta : ℝ, calcSunDeclination realLibm 0 = some theta
          ∧ |theta| ≤ calcObliquityCorrection realLibm 0 := by
  obtain ⟨theta, h1, -, -, h4⟩ := calcSunDeclination_le_obliquity 0
  exact ⟨calcObliquityCorrection_zero.1, calcObliquityCorrection_zero.2, theta, h1,
    h4 calcObliquityCorrection_zero.1 calcObliquityCorrection_zero.2⟩

/-! ## The equator -/

theorem acosArg_zero_lat (d : ℝ) :
    acosArg 0 d = Real.cos (Real.pi * 90.833 / 180) / Real.cos (Real.pi * d / 180) := by
  simp [acosArg]

/-- On the equator, for a declination of at most 23.5 degrees either way, the
`acos` argument lies between `cos 91°` and `cos 90.833°`. -/
theorem acosArg_equator_bounds (d : ℝ) (hd : |d| ≤ 23.5) :
    Real.cos (Real.pi * 91 / 180) < acosArg 0 d
      ∧ acosArg 0 d ≤ Real.cos (Real.pi * 90.833 / 180)
      ∧ 0 < Real.cos (Real.pi * d / 180) := by
  have hpi := Real.pi_pos
  have hpi3 := Real.pi_gt_three
  have hpi4 := Real.pi_lt_d2
  obtain ⟨hd1, hd2⟩ := abs_le.mp hd
  -- the cosine of the declination
  have hc1 : Real.cos (Real.pi * d / 180) ≤ 1 := Real.cos_le_one _
  have hx2 : (Real.pi * d / 180) ^ 2 ≤ 0.17 := by
    have h1 : |Real.pi * d / 180| ≤ 0.412 := by
      rw [abs_div, abs_mul, abs_of_pos hpi, abs_of_pos (by norm_num : (0 : ℝ) < 180),
        div_le_iff₀ (by norm_num)]
      nlinarith [abs_nonneg d]
    have h2 := abs_le.mp h1
    nlinarith [h2.1, h2.2]
  have hc0 : (0.915 : ℝ) ≤ Real.cos (Real.pi * d / 180) := by
    have := Real.one_sub_sq_div_two_le_cos (x := Real.pi * d / 180)
    linarith
  have hcpos : 0 < Real.cos (Real.pi * d / 180) := by linarith
  -- the cosines of 90.833 and of 91 degrees are minus the sines of 0.833 and of 1 degree
  have hz : Real.cos (Real.pi * 90.833 / 180) = -Real.sin (Real.pi * 0.833 / 180) := by
    rw [← Real.cos_add_pi_div_two]; congr 1; ring
  have h91 : Real.cos (Real.pi * 91 / 180) = -Real.sin (Real.pi / 180) := by
    rw [← Real.cos_add_pi_div_two]; congr 1; ring
  have hw0 : 0 < Real.sin (Real.pi * 0.833 / 180) :=
    Real.sin_pos_of_pos_of_lt_pi (by positivity) (by linarith)
  have hw1 : Real.sin (Real.pi * 0.833 / 180) ≤ Real.pi * 0.833 / 180 :=
    Real.sin_le (by positivity)
  have hu : Real.pi / 180 - (Real.pi / 180) ^ 3 / 4 < Real.sin (Real.pi / 180) :=
    Real.sin_gt_sub_cube (by positivity) (by linarith)
  have hu2 : (Real.pi / 180) ^ 2 ≤ 0.001 := by nlinarith
  have hu3 : 0.9 * (Real.pi / 180) ≤ Real.sin (Real.pi / 180) := by
    have : (Real.pi / 180) ^ 3 = (Real.pi / 180) * (Real.pi / 180) ^ 2 := by ring
    nlinarith [show 0 < Real.pi / 180 by positivity]
  rw [acosArg_zero_lat, hz, h91]
  refine ⟨?_, ?_, hcpos⟩
  · rw [lt_div_iff₀ hcpos]
    nlinarith [show 0 < Real.pi / 180 by positivity]
  · rw [div_le_iff₀ hcpos]
    nlinarith

/-- C12: on the equator, for every declination `d` with `|d| ≤ 23.5` degrees, the
sunrise hour angle in degrees is at least 90.833 and below 91, the sunset hour
angle is its negative, and the span `4*(radToDeg(HA sunrise) - radToDeg(HA sunset))`
lies between 726 and 728 minutes. -/
theorem equator_day_length (d : ℝ) (hd : |d| ≤ 23.5) :
    ∃ ha : ℝ, calcHourAngleSunrise realLibm 0 d = some ha
      ∧ calcHourAngleSunset realLibm 0 d = some (-ha)
      ∧ 90.833 ≤ radToDeg realLibm ha ∧ radToDeg realLibm ha < 91
      ∧ 726 ≤ 4 * (radToDeg realLibm ha - radToDeg realLibm (-ha))
      ∧ 4 * (radToDeg realLibm ha - radToDeg realLibm (-ha)) ≤ 728 := by
  have hpi := Real.pi_pos
  obtain ⟨hlo, hhi, hcpos⟩ := acosArg_equator_bounds d hd
  have hz0 : Real.cos (Real.pi * 90.833 / 180) < 0 :=
    Real.cos_neg_of_pi_div_two_lt_of_lt (by linarith) (by linarith)
  have h91 : -1 ≤ Real.cos (Real.pi * 91 / 180) := Real.neg_one_le_cos _
  have hmem : -1 ≤ acosArg 0 d ∧ acosArg 0 d ≤ 1 := ⟨by linarith, by linarith⟩
  have hrise : calcHourAngleSunrise realLibm 0 d = some (Real.arccos (acosArg 0 d)) := by
    rw [calcHourAngleSunrise_real]
    have hne : ¬ Real.cos (Real.pi * 0 / 180) * Real.cos (Real.pi * d / 180) = 0 := by
      simp [ne_of_gt hcpos]
    rw [if_neg hne, if_pos hmem]
  -- the hour angle lies between 90.833 and 91 degrees
  have h1 : Real.pi * 90.833 / 180 ≤ Real.arccos (acosArg 0 d) := by
    have := Real.strictAntiOn_arccos.antitoneOn
      (show acosArg 0 d ∈ Set.Icc (-1 : ℝ) 1 from hmem)
      (show Real.cos (Real.pi * 90.833 / 180) ∈ Set.Icc (-1 : ℝ) 1 from
        ⟨Real.neg_one_le_cos _, Real.cos_le_one _⟩) hhi
    rwa [Real.arccos_cos (by positivity) (by linarith)] at this
  have h2 : Real.arccos (acosArg 0 d) < Real.pi * 91 / 180 := by
    have := Real.strictAntiOn_arccos
      (show Real.cos (Real.pi * 91 / 180) ∈ Set.Icc (-1 : ℝ) 1 from
        ⟨Real.neg_one_le_cos _, Real.cos_le_one _⟩)
      (show acosArg 0 d ∈ Set.Icc (-1 : ℝ) 1 from hmem) hlo
    rwa [Real.arccos_cos (by positivity) (by linarith)] at this
  have d1 : 90.833 ≤ radToDeg realLibm (Real.arccos (acosArg 0 d)) := by
    rw [radToDeg_real, le_div_iff₀ hpi]; linarith
  have d2 : radToDeg realLibm (Real.arccos (acosArg 0 d)) < 91 := by
    rw [radToDeg_real, div_lt_iff₀ hpi]; linarith
  have hneg : radToDeg realLibm (-Real.arccos (acosArg 0 d))
      = -radToDeg realLibm (Real.arccos (acosArg 0 d)) := by
    rw [radToDeg_real, radToDeg_real]; ring
  refine ⟨_, hrise, ?_, d1, d2, ?_, ?_⟩
  · rw [calcHourAngleSunset_eq_map, hrise]; rfl
  · rw [hneg]; linarith
  · rw [hneg]; linarith

/-- Witness of C12: the equinox, declination 0. -/
theorem equator_day_length_witness :
    |(0 : ℝ)| ≤ 23.5
      ∧ ∃ ha : ℝ, calcHourAngleSunrise realLibm 0 0 = some ha
          ∧ calcHourAngleSunset realLibm 0 0 = some (-ha)
          ∧ 90.833 ≤ radToDeg realLibm ha ∧ radToDeg realLibm ha < 91
          ∧ 726 ≤ 4 * (radToDeg realLibm ha - radToDeg realLibm (-ha))
          ∧ 4 * (radToDeg realLibm ha - radToDeg realLibm (-ha)) ≤ 728 :=
  ⟨by norm_num, equator_day_length 0 (by norm_num)⟩

/-! ## Summer and winter -/

theorem acosArg_neg_dec (lat d : ℝ) :
    acosArg lat (-d) = acosArg lat d
      + 2 * (Real.tan (Real.pi * lat / 180) * Real.tan (Real.pi * d / 180)) := by
  have h2 : Real.pi * -d / 180 = -(Real.pi * d / 180) := by ring
  simp only [acosArg, h2, Real.cos_neg, Real.tan_neg]
  ring

/-- In the northern hemisphere the `acos` argument of a northern declination is
below that of the opposite southern declination. -/
theorem acosArg_lt_acosArg_neg (lat d : ℝ) (hlat0 : 0 < lat) (hlat90 : lat < 90)
    (hd0 : 0 < d) (hd90 : d < 90) : acosArg lat d < acosArg lat (-d) := by
  have hpi := Real.pi_pos
  have ha : 0 < Real.tan (Real.pi * lat / 180) :=
    Real.tan_pos_of_pos_of_lt_pi_div_two (by positivity)
      (by rw [div_lt_div_iff₀ (by norm_num) (by norm_num)]; nlinarith)
  have hb : 0 < Real.tan (Real.pi * d / 180) :=
    Real.tan_pos_of_pos_of_lt_pi_div_two (by positivity)
      (by rw [div_lt_div_iff₀ (by norm_num) (by norm_num)]; nlinarith)
  rw [acosArg_neg_dec]
  linarith [mul_pos ha hb]

theorem cos_degrees_pos (x : ℝ) (h0 : 0 < x) (h90 : x < 90) :
    0 < Real.cos (Real.pi * x / 180) := by
  have hpi := Real.pi_pos
  apply Real.cos_pos_of_mem_Ioo
  constructor
  · have : 0 < Real.pi * x / 180 := by positivity
    linarith
  · rw [div_lt_div_iff₀ (by norm_num) (by norm_num)]; nlinarith

/-- Where the latitude and the declination add up to at most 89 degrees the sun
rises and sets at both declinations `d` and `-d`. -/
theorem acosArg_mem_of_add_le (lat d : ℝ) (hd0 : 0 < d) (hdl : d ≤ lat) (hsum : lat + d ≤ 89) :
    (-1 ≤ acosArg lat d ∧ acosArg lat d ≤ 1)
      ∧ (-1 ≤ acosArg lat (-d) ∧ acosArg lat (-d) ≤ 1) := by
  have hpi := Real.pi_pos
  have hlat0 : 0 < lat := by linarith
  have hlat90 : lat < 90 := by linarith
  have hd90 : d < 90 := by linarith
  have hca := cos_degrees_pos lat hlat0 hlat90
  have hcb := cos_degrees_pos d hd0 hd90
  have hP := mul_pos hca hcb
  have hlt := acosArg_lt_acosArg_neg lat d hlat0 hlat90 hd0 hd90
  -- the sum of the two angles, in radians
  have hsum0 : 0 ≤ Real.pi * lat / 180 + Real.pi * d / 180 := by positivity
  have hsum1 : Real.pi * lat / 180 + Real.pi * d / 180 ≤ Real.pi * 89 / 180 := by
    have : Real.pi * lat / 180 + Real.pi * d / 180 = Real.pi * (lat + d) / 180 := by ring
    rw [this, div_le_div_iff₀ (by norm_num) (by norm_num)]
    nlinarith
  have hcos : Real.cos (Real.pi * 89 / 180)
      ≤ Real.cos (Real.pi * lat / 180 + Real.pi * d / 180) :=
    Real.cos_le_cos_of_nonneg_of_le_pi hsum0 (by linarith) hsum1
  have h89 : Real.cos (Real.pi * 89 / 180) = Real.sin (Real.pi / 180) := by
    rw [← Real.cos_pi_div_two_sub]; congr 1; ring
  have hz : Real.cos (Real.pi * 90.833 / 180) = -Real.sin (Real.pi * 0.833 / 180) := by
    rw [← Real.cos_add_pi_div_two]; congr 1; ring
  have hsin : Real.sin (Real.pi * 0.833 / 180) ≤ Real.sin (Real.pi / 180) :=
    Real.sin_le_sin_of_le_of_le_pi_div_two (by linarith [show 0 < Real.pi * 0.833 / 180 by positivity])
      (by linarith) (by linarith)
  have hsin0 : 0 < Real.sin (Real.pi * 0.833 / 180) :=
    Real.sin_pos_of_pos_of_lt_pi (by positivity) (by linarith)
  have hadd := Real.cos_add (Real.pi * lat / 180) (Real.pi * d / 180)
  -- the argument as one quotient
  have hq : acosArg lat d
      = (Real.cos (Real.pi * 90.833 / 180)
          - Real.sin (Real.pi * lat / 180) * Real.sin (Real.pi * d / 180))
        / (Real.cos (Real.pi * lat / 180) * Real.cos (Real.pi * d / 180)) := by
    simp only [acosArg, Real.tan_eq_sin_div_cos]
    field_simp
  have hq2 : acosArg lat (-d)
      = (Real.cos (Real.pi * 90.833 / 180)
          + Real.sin (Real.pi * lat / 180) * Real.sin (Real.pi * d / 180))
        / (Real.cos (Real.pi * lat / 180) * Real.cos (Real.pi * d / 180)) := by
    rw [acosArg_neg_dec]
    simp only [acosArg, Real.tan_eq_sin_div_cos]
    field_simp
    ring
  have hlow : -1 ≤ acosArg lat d := by
    rw [hq, le_div_iff₀ hP]
    linarith
  have hup : acosArg lat (-d) ≤ 1 := by
    rw [hq2, div_le_iff₀ hP]
    linarith
  exact ⟨⟨hlow, by linarith⟩, ⟨by linarith, hup⟩⟩

/-- C14, as the code behaves: at latitude 89° the hour angle of declination
23.44° is NaN, so the comparison `>=` with the hour angle of -23.44° does not
hold. -/
theorem calcHourAngleSunrise_polar_not_ge :
    (0 : ℝ) < 89 ∧ (89 : ℝ) < 90 ∧ (0 : ℝ) < 23.44 ∧ (23.44 : ℝ) < 90
      ∧ ¬ fge (calcHourAngleSunrise realLibm 89 23.44)
          (calcHourAngleSunrise realLibm 89 (-23.44)) := by
  refine ⟨by norm_num, by norm_num, by norm_num, by norm_num, ?_⟩
  rintro ⟨a, b, ha, -, -⟩
  rw [(calcHourAngle_none_of_outside 89 23.44 (Or.inl acosArg_polar_lt)).1] at ha
  exact Option.noConfusion ha

/-- C14, amended: for `0 < lat < 90` and `0 < d < 90` the comparison
`calcHourAngleSunrise(lat, d) >= calcHourAngleSunrise(lat, -d)` holds exactly
when both `acos` arguments lie in `[-1, 1]`: then both hour angles are numbers
and the first is at least the second, and otherwise an operand is NaN. -/
theorem calcHourAngleSunrise_summer_ge_winter (lat d : ℝ) (hlat0 : 0 < lat) (hlat90 : lat < 90)
    (hd0 : 0 < d) (hd90 : d < 90) :
    fge (calcHourAngleSunrise realLibm lat d) (calcHourAngleSunrise realLibm lat (-d))
      ↔ ((-1 ≤ acosArg lat d ∧ acosArg lat d ≤ 1)
          ∧ (-1 ≤ acosArg lat (-d) ∧ acosArg lat (-d) ≤ 1)) := by
  have hca := cos_degrees_pos lat hlat0 hlat90
  have hcb := cos_degrees_pos d hd0 hd90
  have hne : ¬ Real.cos (Real.pi * lat / 180) * Real.cos (Real.pi * d / 180) = 0 :=
    ne_of_gt (mul_pos hca hcb)
  have hne2 : ¬ Real.cos (Real.pi * lat / 180) * Real.cos (Real.pi * -d / 180) = 0 := by
    have h2 : Real.pi * -d / 180 = -(Real.pi * d / 180) := by ring
    rw [h2, Real.cos_neg]; exact hne
  have e1 := calcHourAngleSunrise_real lat d
  have e2 := calcHourAngleSunrise_real lat (-d)
  rw [if_neg hne] at e1
  rw [if_neg hne2] at e2
  constructor
  · rintro ⟨a, b, ha, hb, -⟩
    by_cases h1 : -1 ≤ acosArg lat d ∧ acosArg lat d ≤ 1
    · by_cases h2 : -1 ≤ acosArg lat (-d) ∧ acosArg lat (-d) ≤ 1
      · exact ⟨h1, h2⟩
      · rw [if_neg h2] at e2
        rw [e2] at hb
        exact Option.noConfusion hb
    · rw [if_neg h1] at e1
      rw [e1] at ha
      exact Option.noConfusion ha
  · rintro ⟨h1, h2⟩
    rw [if_pos h1] at e1
    rw [if_pos h2] at e2
    exact ⟨_, _, e1, e2, le_of_lt (Real.strictAntiOn_arccos h1 h2
      (acosArg_lt_acosArg_neg lat d hlat0 hlat90 hd0 hd90))⟩

/-- Witness of the amended C14: latitude 51.38°, declination 23.44°, where both
`acos` arguments lie in `[-1, 1]` and the comparison holds. -/
theorem calcHourAngleSunrise_summer_ge_winter_witness :
    (0 : ℝ) < 51.38 ∧ (51.38 : ℝ) < 90 ∧ (0 : ℝ) < 23.44 ∧ (23.44 : ℝ) < 90
      ∧ ((-1 ≤ acosArg 51.38 23.44 ∧ acosArg 51.38 23.44 ≤ 1)
          ∧ (-1 ≤ acosArg 51.38 (-23.44) ∧ acosArg 51.38 (-23.44) ≤ 1))
      ∧ fge (calcHourAngleSunrise realLibm 51.38 23.44)
          (calcHourAngleSunrise realLibm 51.38 (-23.44)) := by
  have hmem := acosArg_mem_of_add_le 51.38 23.44 (by norm_num) (by norm_num) (by norm_num)
  exact ⟨by norm_num, by norm_num, by norm_num, by norm_num, hmem,
    (calcHourAngleSunrise_summer_ge_winter 51.38 23.44 (by norm_num) (by norm_num)
      (by norm_num) (by norm_num)).2 hmem⟩

end Sunrise
